import Mathlib

/-!
# Verification of the regl-graphics sampling core

Shallow embedding of the uniform point-sampling library:
`src/curves1d.js` (Path1D, LUT-based arc-length sampling),
`src/shapes/shapes2d.js` (EllipseSector2D, Rectangle2D, ...),
`src/shapes3d.js` (Box3D, ...), `src/translated_shape.js` (TranslatedShape)
and the CSG layer of `composite_shapes.js`
(sampleUnion / sampleIntersection / sampleDifference / CompositeShape).

Numbers are modelled over a linear ordered field `K` (instantiated at `ℚ`
for executable checks and at `ℝ` when genuine square roots and
trigonometry are needed).  Each call of `Math.random()` becomes an
explicit argument in `[0,1)`; a loop that draws repeatedly receives a
stream `ℕ → K`.  Transcendental functions (`Math.sqrt`, `Math.cos`, ...)
are passed as explicit function arguments; at `ℝ` they are instantiated
with `Real.sqrt`, `Real.cos`, ....  JS functions that `throw` are
modelled with `Except String`.
-/

namespace ReglGraphics

/-- The universal point type `{x, y, z}` of the library.  2D shapes set
`z` to the center's `z` (the JS `center.z ?? 0` default is modelled by
storing a full 3D center). -/
@[ext] structure Point (K : Type) where
  x : K
  y : K
  z : K
  deriving Repr, DecidableEq

/-- Axis-aligned bounding box.  2D shapes are modelled with
`minZ = maxZ = 0`, matching the `?? 0` defaults applied by the composite
code when a bbox has no `z` fields. -/
@[ext] structure BBox (K : Type) where
  minX : K
  maxX : K
  minY : K
  maxY : K
  minZ : K
  maxZ : K
  deriving Repr, DecidableEq

variable {K : Type} [LinearOrderedField K]

/-- Truncation toward zero, as used by the JS `%` remainder operator. -/
def jsTrunc [FloorRing K] (x : K) : ℤ :=
  if 0 ≤ x then ⌊x⌋ else ⌈x⌉

/-- The JS remainder operator `a % b` for `b ≠ 0`:
`a - b * trunc (a / b)` (sign follows the dividend). -/
def jsMod [FloorRing K] (a b : K) : K :=
  a - b * (jsTrunc (a / b) : K)

/-- `Math.atan2 y x`, modelled from an arctangent function `at1` and a
constant `pi` (instantiated with `Real.arctan` and `Real.pi` over `ℝ`). -/
def jsAtan2 (at1 : K → K) (pi : K) (y x : K) : K :=
  if 0 < x then at1 (y / x)
  else if x < 0 then
    (if 0 ≤ y then at1 (y / x) + pi else at1 (y / x) - pi)
  else
    (if 0 < y then pi / 2 else if y < 0 then -(pi / 2) else 0)

/-- Executable stand-in for `Math.sqrt` over `ℚ`: exact on perfect
squares of nonnegative rationals (the only square roots that the
executable checks below take), and always nonnegative. -/
def ratSqrt (q : ℚ) : ℚ :=
  (Nat.sqrt q.num.toNat : ℚ) / (Nat.sqrt q.den : ℚ)

/-!
## Embedding of `src/curves1d.js`

`Path1D` pre-bakes parametric segments into cumulative chord-length
lookup tables and samples by (1) drawing `r = Math.random() * totalLength`,
(2) scanning segments by cumulative length, (3) for a baked segment,
drawing a fresh `target = Math.random() * seg.totalLength` and inverting
the LUT by binary search plus linear interpolation.
-/

/-- Distance between two points as computed in `curves1d.js`:
`Math.sqrt(dx**2 + dy**2 + dz**2)` with `sq` standing for `Math.sqrt`. -/
def jsDist (sq : K → K) (p q : Point K) : K :=
  sq ((q.x - p.x) ^ 2 + (q.y - p.y) ^ 2 + (q.z - p.z) ^ 2)

/-- Cumulative chord-length LUT built by `Path1D._prebakeParametric`
(and identically by `parametricCurve`): `lutF sq f n i` is `lut[i]`,
the chord length accumulated over the first `i` of `n` steps. -/
def lutF (sq : K → K) (f : K → Point K) (n : ℕ) : ℕ → K
  | 0 => 0
  | i + 1 => lutF sq f n i + jsDist sq (f ((i : K) / (n : K))) (f (((i : K) + 1) / (n : K)))

/-- Path segments accepted by the `Path1D` constructor, after pre-baking:
line configs `{start, end}` and baked parametric segments
`{type:'baked_parametric', f, lut, totalLength, samples}` (the LUT data
is recomputed from `f` and `n` by `lutF`).  Arc segments are not used by
any claim and are omitted from the embedding. -/
inductive Seg (K : Type) where
  | line (s e : Point K)
  | baked (f : K → Point K) (n : ℕ)

/-- Segment length as computed by `Path1D._calculateLength`: Euclidean
distance for a line, the pre-baked `totalLength` for a parametric. -/
def segLength (sq : K → K) : Seg K → K
  | .line s e => jsDist sq s e
  | .baked f n => lutF sq f n n

/-- The `totalLength` accumulated by the `Path1D` constructor. -/
def pathTotalLength (sq : K → K) (segs : List (Seg K)) : K :=
  (segs.map (segLength sq)).sum

/-- The `while (low < high)` binary search of `_sampleBaked`
(`mid = (low+high) >>> 1; lut[mid] < target ? low = mid+1 : high = mid`),
written with an explicit iteration bound `fuel`; `fuel = high - low + 1`
always suffices because the interval shrinks every step. -/
def bsearch (lut : ℕ → K) (target : K) : ℕ → ℕ → ℕ → ℕ
  | 0, low, _ => low
  | fuel + 1, low, high =>
    if low < high then
      let mid := (low + high) / 2
      if lut mid < target then bsearch lut target fuel (mid + 1) high
      else bsearch lut target fuel low mid
    else low

/-- The bracket index `i = Math.max(1, low)` computed by `_sampleBaked`
after the binary search on target `u * seg.totalLength`. -/
def bakedIndex (sq : K → K) (f : K → Point K) (n : ℕ) (u : K) : ℕ :=
  max 1 (bsearch (lutF sq f n) (u * lutF sq f n n) (n + 1) 0 n)

/-- The divisor `(segmentLen || 1)` used by `_sampleBaked`: the bracket's
LUT increment, with the JS `|| 1` fallback replacing a zero divisor. -/
def bakedDivisor (sq : K → K) (f : K → Point K) (n : ℕ) (u : K) : K :=
  let lut := lutF sq f n
  let i := bakedIndex sq f n u
  let segmentLen := lut i - lut (i - 1)
  if segmentLen = 0 then 1 else segmentLen

/-- The interpolated parameter
`t = t0 + (t1 - t0) * (target - lut[i-1]) / (segmentLen || 1)`
computed by `_sampleBaked`. -/
def bakedParam (sq : K → K) (f : K → Point K) (n : ℕ) (u : K) : K :=
  let lut := lutF sq f n
  let target := u * lut n
  let i := bakedIndex sq f n u
  let t0 : K := ((i - 1 : ℕ) : K) / (n : K)
  let t1 : K := (i : K) / (n : K)
  t0 + (t1 - t0) * (target - lut (i - 1)) / bakedDivisor sq f n u

/-- `Path1D._sampleBaked`: evaluate the user's curve at the interpolated
parameter, `u` being the `Math.random()` draw of this call. -/
def sampleBaked (sq : K → K) (f : K → Point K) (n : ℕ) (u : K) : Point K :=
  f (bakedParam sq f n u)

/-- The `lineSegment` sampler of `curves1d.js` at draw `t`. -/
def lineSample (s e : Point K) (t : K) : Point K :=
  ⟨s.x + t * (e.x - s.x), s.y + t * (e.y - s.y), s.z + t * (e.z - s.z)⟩

/-- Dispatch to a segment's own sampler (`_sampleBaked` for baked
segments, `sampleCurve` → `lineSegment` for lines), with `u` the
`Math.random()` draw the chosen sampler consumes. -/
def sampleSeg (sq : K → K) : Seg K → K → Point K
  | .line s e, u => lineSample s e u
  | .baked f n, u => sampleBaked sq f n u

/-- The segment-selection loop of `Path1D.sample`
(`if (r <= this.lengths[i]) ... ; r -= this.lengths[i]`), `i` indexing
the random stream `us`.  Returns `none` when the loop falls through. -/
def pathLoop (sq : K → K) (us : ℕ → K) : List (Seg K) → ℕ → K → Option (Point K)
  | [], _, _ => none
  | seg :: rest, i, r =>
    if r ≤ segLength sq seg then some (sampleSeg sq seg (us i))
    else pathLoop sq us rest (i + 1) (r - segLength sq seg)

/-- `Path1D.sample`: returns `{x:0, y:0, z:0}` when `totalLength === 0`,
otherwise draws `r = u * totalLength`, scans segments, and falls back to
sampling the last segment if the loop exits (the fallback consumes a
fresh draw, indexed `segs.length`). -/
def samplePath (sq : K → K) (segs : List (Seg K)) (u : K) (us : ℕ → K) : Point K :=
  if pathTotalLength sq segs = 0 then ⟨0, 0, 0⟩
  else
    match pathLoop sq us segs 0 (u * pathTotalLength sq segs) with
    | some p => p
    | none =>
      match segs.getLast? with
      | some seg => sampleSeg sq seg (us segs.length)
      | none => ⟨0, 0, 0⟩

/-- Chord-length arc position of parameter `t` inside bracket `i` of a
LUT with `n` steps: the linear function through `((i-1)/n, lut (i-1))`
and `(i/n, lut i)`.  This is the arc length of the parameter `t` along
the chord-length (piecewise-linear) approximation of the curve. -/
def lutPos (lut : ℕ → K) (n i : ℕ) (t : K) : K :=
  lut (i - 1) + (t * (n : K) - ((i - 1 : ℕ) : K)) * (lut i - lut (i - 1))

/-- The extreme speed-up test curve `(t) => ({x: t*t*t*100, y: 0})` used
by the repository's LUT-uniformity unit test (absent JS fields read 0). -/
def cubicSpeedup (t : K) : Point K :=
  ⟨t * t * t * 100, 0, 0⟩

/-- The wrap-around sweep `deltaTheta` computation shared by the sector
classes: `if (deltaTheta < 0) deltaTheta += 2 * Math.PI`. -/
def wrapDelta (pi startAngle endAngle : K) : K :=
  let d := endAngle - startAngle
  if d < 0 then d + 2 * pi else d

/-- The default `epsilon = 1e-9` of the `contains` methods. -/
def defaultEps : K := 1 / 1000000000

/-- Constructor data of `EllipseSector2D` (`src/shapes/shapes2d.js`). -/
structure EllipseSector2D (K : Type) where
  center : Point K
  rx : K
  ry : K
  startAngle : K
  endAngle : K

/-- The `area` field set by the `EllipseSector2D` constructor:
`0.5 * rx * ry * deltaTheta`. -/
def EllipseSector2D.area (pi : K) (s : EllipseSector2D K) : K :=
  0.5 * s.rx * s.ry * wrapDelta pi s.startAngle s.endAngle

/-- The `bbox` field set by the `EllipseSector2D` constructor
(2D: `minZ = maxZ = 0`). -/
def EllipseSector2D.bbox (s : EllipseSector2D K) : BBox K :=
  ⟨s.center.x - s.rx, s.center.x + s.rx, s.center.y - s.ry, s.center.y + s.ry, 0, 0⟩

/-- `EllipseSector2D.sample` at draws `u1` (angle) and `u2` (radius):
`t = (start + rand*deltaTheta) % (2*PI)`, `u = sqrt(rand)`,
point `center + (u*rx*cos t, u*ry*sin t)`. -/
def EllipseSector2D.sample [FloorRing K] (sq cosF sinF : K → K) (pi : K)
    (s : EllipseSector2D K) (u1 u2 : K) : Point K :=
  let t := jsMod (s.startAngle + u1 * wrapDelta pi s.startAngle s.endAngle) (2 * pi)
  let u := sq u2
  ⟨s.center.x + u * s.rx * cosF t, s.center.y + u * s.ry * sinF t, s.center.z⟩

/-- `EllipseSector2D.contains(p, epsilon)`: normalized radial check,
then the angle check on `theta = atan2(dy*rx, dx*ry)` (note the cross
multiplication as written in the source), with wraparound when
`start > end`. -/
def EllipseSector2D.contains (at1 : K → K) (pi : K)
    (s : EllipseSector2D K) (p : Point K) (eps : K) : Bool :=
  let dx := (p.x - s.center.x) / s.rx
  let dy := (p.y - s.center.y) / s.ry
  if dx * dx + dy * dy > 1 + eps then false
  else
    let theta0 := jsAtan2 at1 pi (dy * s.rx) (dx * s.ry)
    let theta := if theta0 < 0 then theta0 + 2 * pi else theta0
    if s.startAngle ≤ s.endAngle then
      decide (s.startAngle - eps ≤ theta ∧ theta ≤ s.endAngle + eps)
    else
      decide (s.startAngle - eps ≤ theta ∨ theta ≤ s.endAngle + eps)

/-- Constructor data of `Rectangle2D` (`src/shapes/shapes2d.js`). -/
structure Rectangle2D (K : Type) where
  center : Point K
  width : K
  height : K

/-- The `area` field of `Rectangle2D`: `width * height`. -/
def Rectangle2D.area (r : Rectangle2D K) : K :=
  r.width * r.height

/-- `Rectangle2D.sample`: `center + (rand - 0.5) * size` per axis. -/
def Rectangle2D.sample (r : Rectangle2D K) (u1 u2 : K) : Point K :=
  ⟨r.center.x + (u1 - 0.5) * r.width, r.center.y + (u2 - 0.5) * r.height, r.center.z⟩

/-- `Rectangle2D.contains(p, epsilon)`. -/
def Rectangle2D.contains (r : Rectangle2D K) (p : Point K) (eps : K) : Bool :=
  decide (|p.x - r.center.x| ≤ r.width / 2 + eps ∧ |p.y - r.center.y| ≤ r.height / 2 + eps)

/-- Constructor data of the `Circle2D` class bundled with
`composite_shapes.js` (no epsilon parameter in its `contains`). -/
structure Circle2D (K : Type) where
  center : Point K
  radius : K

/-- The `area` field of `Circle2D`: `Math.PI * radius * radius`. -/
def Circle2D.area (pi : K) (c : Circle2D K) : K :=
  pi * c.radius * c.radius

/-- `Circle2D.sample`: `t = rand * 2 * PI`, `r = sqrt(rand) * radius`. -/
def Circle2D.sample (sq cosF sinF : K → K) (pi : K)
    (c : Circle2D K) (u1 u2 : K) : Point K :=
  let t := u1 * 2 * pi
  let r := sq u2 * c.radius
  ⟨c.center.x + r * cosF t, c.center.y + r * sinF t, c.center.z⟩

/-- `Circle2D.contains(p)`: `dx*dx + dy*dy <= radius*radius`. -/
def Circle2D.contains (c : Circle2D K) (p : Point K) : Bool :=
  decide ((p.x - c.center.x) * (p.x - c.center.x) +
    (p.y - c.center.y) * (p.y - c.center.y) ≤ c.radius * c.radius)

/-- Constructor data of `Box3D` (`src/shapes3d.js`). -/
structure Box3D (K : Type) where
  center : Point K
  width : K
  height : K
  depth : K

/-- The `volume` field of `Box3D`. -/
def Box3D.volume (b : Box3D K) : K :=
  b.width * b.height * b.depth

/-- The `bbox` field of `Box3D`: `center ± size/2` per axis. -/
def Box3D.bbox (b : Box3D K) : BBox K :=
  ⟨b.center.x - b.width / 2, b.center.x + b.width / 2,
   b.center.y - b.height / 2, b.center.y + b.height / 2,
   b.center.z - b.depth / 2, b.center.z + b.depth / 2⟩

/-- `Box3D.contains(p, epsilon)`. -/
def Box3D.contains (b : Box3D K) (p : Point K) (eps : K) : Bool :=
  decide (|p.x - b.center.x| ≤ b.width / 2 + eps ∧
    |p.y - b.center.y| ≤ b.height / 2 + eps ∧
    |p.z - b.center.z| ≤ b.depth / 2 + eps)

/-- `Box3D.sample`: `center + (rand - 0.5) * size` per axis. -/
def Box3D.sample (b : Box3D K) (u1 u2 u3 : K) : Point K :=
  ⟨b.center.x + (u1 - 0.5) * b.width,
   b.center.y + (u2 - 0.5) * b.height,
   b.center.z + (u3 - 0.5) * b.depth⟩

/-!
## Embedding of `src/translated_shape.js`
-/

/-- Bounding box as a duck-typed JS object: the `minZ`/`maxZ` fields
may be absent (`undefined`) — every 2D shape of the library
(`EllipseSector2D`, `Triangle2D`, `Rectangle2D`, `Polygon2D`) builds a
bbox without them. -/
@[ext] structure JsBBox (K : Type) where
  minX : K
  maxX : K
  minY : K
  maxY : K
  minZ : Option K
  maxZ : Option K
  deriving Repr, DecidableEq

/-- Duck-typed base shape as consumed by `TranslatedShape`: `contains`
may be absent (the source guards `if (!this.base.contains) return
false`), and so may `center`, `bbox`, and a bbox's z fields; `sample k`
is the point returned by the base's `k`-th `sample()` call. -/
@[ext] structure DuckShape (K : Type) where
  sample : ℕ → Point K
  containsF : Option (Point K → K → Bool)
  area : K
  volume : K
  center : Option (Point K)
  bbox : Option (JsBBox K)

/-- The `TranslatedShape(baseShape, dx, dy, dz)` decorator: offsets
samples and center by the offset, subtracts the offset before
delegating `contains`, passes `area`/`volume` through unchanged.  The
bbox fields are shifted, except that a missing `minZ`/`maxZ` falls back
to `this.center.z` — the already-translated center z — before `+ dz` is
applied (`(baseShape.bbox.minZ ?? this.center.z) + dz` in the source),
so a z-less base bbox gets `minZ = maxZ = translatedCenter.z + dz`,
with the z offset applied twice. -/
def TranslatedShape (b : DuckShape K) (dx dy dz : K) : DuckShape K where
  sample := fun k => ⟨(b.sample k).x + dx, (b.sample k).y + dy, (b.sample k).z + dz⟩
  containsF := some fun p eps =>
    match b.containsF with
    | none => false
    | some f => f ⟨p.x - dx, p.y - dy, p.z - dz⟩ eps
  area := b.area
  volume := b.volume
  center := some (match b.center with
    | some c => ⟨c.x + dx, c.y + dy, c.z + dz⟩
    | none => ⟨dx, dy, dz⟩)
  bbox :=
    let centerZ : K :=
      match b.center with
      | some c => c.z + dz
      | none => dz
    match b.bbox with
    | some bb => some ⟨bb.minX + dx, bb.maxX + dx, bb.minY + dy, bb.maxY + dy,
        some (bb.minZ.getD centerZ + dz), some (bb.maxZ.getD centerZ + dz)⟩
    | none => none

/-!
## Embedding of `composite_shapes.js` (the CSG layer)
-/

/-- Duck-typed child shape as consumed by the CSG samplers: `contains`
is the one-argument call `s.contains(p)` (the child's own default
epsilon is baked in), `sample k` the point of the child's `k`-th
`sample()` call, `weight` the JS selection weight `s.area ?? s.volume
?? 1`, and `bbox` the child's bounding box with `?? 0` z-defaults
applied. -/
structure CShape (K : Type) where
  sample : ℕ → Point K
  contains : Point K → Bool
  weight : K
  bbox : BBox K

instance : Inhabited (CShape K) :=
  ⟨⟨fun _ => ⟨0, 0, 0⟩, fun _ => false, 0, ⟨0, 0, 0, 0, 0, 0⟩⟩⟩

/-- Array access `shapes[i]` (always in range where the JS uses it). -/
def getShape (shapes : List (CShape K)) (i : ℕ) : CShape K :=
  shapes.getD i default

/-- The weighted-selection loop of `sampleUnion` and
`sampleFaultyUnion`: `if ((r -= weights[i]) <= 0) { i; break }`;
`none` when the loop finishes without breaking. -/
def selectIndexOpt : List K → K → ℕ → Option ℕ
  | [], _, _ => none
  | w :: ws, r, i => if r - w ≤ 0 then some i else selectIndexOpt ws (r - w) (i + 1)

/-- The selected index of `sampleUnion`: `selectedIdx` is initialized to
0, so a fall-through of the loop leaves 0. -/
def selectIndex (weights : List K) (r : K) : ℕ :=
  (selectIndexOpt weights r 0).getD 0

/-- The `alreadyCovered` loop of `sampleUnion`: does any child with
index `j < i` contain `p`? -/
def alreadyCovered (shapes : List (CShape K)) (i : ℕ) (p : Point K) : Bool :=
  (List.range i).any fun j => (getShape shapes j).contains p

/-- The attempt loop of `sampleUnion`; the first argument of the
recursion is the number of attempts left, `k` the attempt index (also
indexing the random stream `rs` and the children's sample streams).
After the last attempt the fallback `return shapes[0].sample()` runs
(a `TypeError` on an empty list, as in JS). -/
def sampleUnionGo (shapes : List (CShape K)) (weights : List K) (totalWeight : K)
    (rs : ℕ → K) : ℕ → ℕ → Except String (Point K)
  | 0, k =>
    match shapes with
    | [] => .error "TypeError: shapes[0] is undefined"
    | s :: _ => .ok (s.sample k)
  | n + 1, k =>
    match shapes with
    | [] => .error "TypeError: shapes[0] is undefined"
    | _ :: _ =>
      let r := rs k * totalWeight
      let idx := selectIndex weights r
      let p := (getShape shapes idx).sample k
      if alreadyCovered shapes idx p then sampleUnionGo shapes weights totalWeight rs n (k + 1)
      else .ok p

/-- `sampleUnion(shapes, maxAttempts)` of `composite_shapes.js`
(JS signature default `maxAttempts = 100`; `CompositeShape` passes its
own `maxAttempts`, default 1000). -/
def sampleUnion (shapes : List (CShape K)) (maxAttempts : ℕ) (rs : ℕ → K) :
    Except String (Point K) :=
  let weights := shapes.map (·.weight)
  let totalWeight := weights.sum
  sampleUnionGo shapes weights totalWeight rs maxAttempts 0

/-- `sampleFaultyUnion(shapes)`: weighted selection without the overlap
check; a loop fall-through returns the last shape's sample. -/
def sampleFaultyUnion (shapes : List (CShape K)) (u : K) : Except String (Point K) :=
  match shapes with
  | [] => .error "TypeError: shapes[shapes.length - 1] is undefined"
  | _ :: _ =>
    let weights := shapes.map (·.weight)
    let totalWeight := weights.sum
    let r := u * totalWeight
    match selectIndexOpt weights r 0 with
    | some i => .ok ((getShape shapes i).sample 0)
    | none => .ok ((getShape shapes (shapes.length - 1)).sample 0)

/-- The bounding-box intersection `reduce` of `sampleIntersection`
(initial accumulator `shapes[0].bbox`, combined over all shapes). -/
def intersectBBox (shapes : List (CShape K)) (init : BBox K) : BBox K :=
  shapes.foldl (fun acc s =>
    ⟨max acc.minX s.bbox.minX, min acc.maxX s.bbox.maxX,
     max acc.minY s.bbox.minY, min acc.maxY s.bbox.maxY,
     max acc.minZ s.bbox.minZ, min acc.maxZ s.bbox.maxZ⟩) init

/-- The candidate point drawn inside the intersected bbox by one
attempt of `sampleIntersection` (`z` is forced to 0 when
`maxZ === minZ`). -/
def bboxCandidate (bb : BBox K) (xr yr zr : ℕ → K) (k : ℕ) : Point K :=
  ⟨bb.minX + xr k * (bb.maxX - bb.minX),
   bb.minY + yr k * (bb.maxY - bb.minY),
   if bb.maxZ = bb.minZ then 0 else bb.minZ + zr k * (bb.maxZ - bb.minZ)⟩

/-- The rejection loop of `sampleIntersection`: draw a point in the
intersected bbox, accept when every child contains it; exhausting the
attempts throws. -/
def sampleIntersectionGo (shapes : List (CShape K)) (bb : BBox K)
    (xr yr zr : ℕ → K) (total : ℕ) : ℕ → ℕ → Except String (Point K)
  | 0, _ => .error ("Intersection sampling failed after " ++ toString total ++ " attempts")
  | n + 1, k =>
    let p := bboxCandidate bb xr yr zr k
    if shapes.all (fun s => s.contains p) then .ok p
    else sampleIntersectionGo shapes bb xr yr zr total n (k + 1)

/-- `sampleIntersection(shapes, maxAttempts = 1000)`: intersect the
bounding boxes, throw the disjointness error when the intersection is
empty on the x or y axis (the source checks only those two), then
rejection-sample. -/
def sampleIntersection (shapes : List (CShape K)) (maxAttempts : ℕ)
    (xr yr zr : ℕ → K) : Except String (Point K) :=
  match shapes with
  | [] => .error "TypeError: shapes[0] is undefined"
  | s0 :: _ =>
    let bb := intersectBBox shapes s0.bbox
    if bb.minX > bb.maxX ∨ bb.minY > bb.maxY then
      .error "Shapes do not intersect (Bounding boxes are disjoint)"
    else
      sampleIntersectionGo shapes bb xr yr zr maxAttempts maxAttempts 0

/-- The attempt loop of `sampleDifference`: draw from `shapeA.sample()`,
accept when not contained in `shapeB`; exhausting the attempts throws. -/
def sampleDifferenceGo (A B : CShape K) (total : ℕ) : ℕ → ℕ → Except String (Point K)
  | 0, _ => .error ("Difference sampling failed after " ++ toString total ++ " attempts")
  | n + 1, k =>
    let p := A.sample k
    if B.contains p then sampleDifferenceGo A B total n (k + 1) else .ok p

/-- `sampleDifference(shapeA, shapeB, maxAttempts = 1000)`. -/
def sampleDifference (A B : CShape K) (maxAttempts : ℕ) : Except String (Point K) :=
  sampleDifferenceGo A B maxAttempts maxAttempts 0

/-- Wrap a `Circle2D` as a duck-typed CSG child: one-argument
`contains`, a sample stream fed by two random streams, and the
`s.area ?? s.volume ?? 1` weight (its `area`).  `Circle2D` defines no
bbox; the `bbox` field is unused by the union and difference samplers
and is set to a zero box. -/
def circleCShape (sq cosF sinF : K → K) (pi : K) (c : Circle2D K)
    (u1 u2 : ℕ → K) : CShape K :=
  ⟨fun k => Circle2D.sample sq cosF sinF pi c (u1 k) (u2 k),
   fun p => Circle2D.contains c p,
   Circle2D.area pi c,
   ⟨0, 0, 0, 0, 0, 0⟩⟩

/-- Wrap a `Box3D` (`src/shapes3d.js`) as a duck-typed CSG child; its
`contains(p)` call uses the method's default epsilon `1e-9`. -/
def boxCShape (b : Box3D K) (u1 u2 u3 : ℕ → K) : CShape K :=
  ⟨fun k => Box3D.sample b (u1 k) (u2 k) (u3 k),
   fun p => Box3D.contains b p defaultEps,
   Box3D.volume b,
   Box3D.bbox b⟩

/-- The CSG operation tags of `CompositeShape`. -/
inductive CSGType where
  | union
  | faultyUnion
  | intersection
  | difference

/-- `CompositeShape(type, shapes, options)`; `maxAttempts` is
`options.maxAttempts ?? 1000`.  The derived `volume`/`bbox` caches are
not needed by the claims and are omitted. -/
structure CompositeShape (K : Type) where
  type : CSGType
  shapes : List (CShape K)
  maxAttempts : ℕ

/-- The constructor default `options.maxAttempts ?? 1000`. -/
def compositeDefaultMaxAttempts : ℕ := 1000

/-- `CompositeShape.contains(p)` (the source forwards its epsilon to the
children; the children bundled with `composite_shapes.js` take no
epsilon, which the `CShape` field models). -/
def CompositeShape.contains (c : CompositeShape K) (p : Point K) : Bool :=
  match c.type with
  | .union | .faultyUnion => c.shapes.any fun s => s.contains p
  | .intersection => c.shapes.all fun s => s.contains p
  | .difference => (getShape c.shapes 0).contains p && !(getShape c.shapes 1).contains p

/-- `CompositeShape.sample()`, dispatching on the operation type;
`rs`, `xr`, `yr`, `zr` are the random streams the dispatched sampler
consumes. -/
def CompositeShape.sample (c : CompositeShape K) (rs xr yr zr : ℕ → K) :
    Except String (Point K) :=
  match c.type with
  | .union => sampleUnion c.shapes c.maxAttempts rs
  | .faultyUnion => sampleFaultyUnion c.shapes (rs 0)
  | .intersection => sampleIntersection c.shapes c.maxAttempts xr yr zr
  | .difference => sampleDifference (getShape c.shapes 0) (getShape c.shapes 1) c.maxAttempts

/-!
## Theorems

First the helper lemmas, then one theorem per claim (with its witness or
counterexample where required).
-/

theorem ratSqrt_nonneg (q : ℚ) : 0 ≤ ratSqrt q := by
  unfold ratSqrt
  positivity

theorem lutF_mono (sq : K → K) (f : K → Point K) (n : ℕ)
    (hsq : ∀ x, 0 ≤ sq x) : Monotone (lutF sq f n) := by
  apply monotone_nat_of_le_succ
  intro i
  simp only [lutF]
  have h2 := hsq (((f (((i : K) + 1) / (n : K))).x - (f ((i : K) / (n : K))).x) ^ 2 +
    ((f (((i : K) + 1) / (n : K))).y - (f ((i : K) / (n : K))).y) ^ 2 +
    ((f (((i : K) + 1) / (n : K))).z - (f ((i : K) / (n : K))).z) ^ 2)
  simp only [jsDist]
  linarith

theorem bsearch_correct (lut : ℕ → K) (target : K) (hmono : Monotone lut) :
    ∀ fuel low high, high - low ≤ fuel → low ≤ high →
      (∀ j, j < low → lut j < target) → (∀ j, high ≤ j → target ≤ lut j) →
      (∀ j, j < bsearch lut target fuel low high → lut j < target) ∧
        target ≤ lut (bsearch lut target fuel low high) ∧
        low ≤ bsearch lut target fuel low high ∧
        bsearch lut target fuel low high ≤ high := by
  intro fuel
  induction fuel with
  | zero =>
    intro low high hf hlh hlow hhigh
    have heq : low = high := by omega
    simp only [bsearch]
    exact ⟨hlow, hhigh low heq.ge, le_refl _, hlh⟩
  | succ fuel ih =>
    intro low high hf hlh hlow hhigh
    by_cases h : low < high
    · have hmid1 : low ≤ (low + high) / 2 := by omega
      have hmid2 : (low + high) / 2 < high := by omega
      by_cases hc : lut ((low + high) / 2) < target
      · have hrec := ih ((low + high) / 2 + 1) high (by omega) (by omega)
          (fun j hj => lt_of_le_of_lt (hmono (by omega : j ≤ (low + high) / 2)) hc)
          hhigh
        simpa only [bsearch, if_pos h, if_pos hc] using
          ⟨hrec.1, hrec.2.1, le_trans (by omega) hrec.2.2.1, hrec.2.2.2⟩
      · have hrec := ih low ((low + high) / 2) (by omega) (by omega) hlow
          (fun j hj => le_trans (not_lt.mp hc) (hmono hj))
        simpa only [bsearch, if_pos h, if_neg hc] using
          ⟨hrec.1, hrec.2.1, hrec.2.2.1, le_trans hrec.2.2.2 (by omega)⟩
    · have heq : low = high := le_antisymm hlh (not_lt.mp h)
      simp only [bsearch, if_neg h]
      exact ⟨hlow, hhigh low heq.ge, le_refl _, hlh⟩

/-- Core inversion property of `_sampleBaked`: the interpolated parameter
`t` sits in bracket `i ∈ [1, n]`, the chord-length arc position of `t`
equals the drawn target `u * seg.totalLength` exactly, and the `|| 1`
guarded divisor is never zero. -/
theorem bakedParam_inverts (sq : K → K) (f : K → Point K) (n : ℕ)
    (hn : 1 ≤ n) (hsq : ∀ x, 0 ≤ sq x) (u : K) (hu0 : 0 ≤ u) (hu1 : u ≤ 1) :
    lutPos (lutF sq f n) n (bakedIndex sq f n u) (bakedParam sq f n u)
        = u * lutF sq f n n ∧
      ((bakedIndex sq f n u - 1 : ℕ) : K) / (n : K) ≤ bakedParam sq f n u ∧
      bakedParam sq f n u ≤ ((bakedIndex sq f n u : ℕ) : K) / (n : K) ∧
      1 ≤ bakedIndex sq f n u ∧ bakedIndex sq f n u ≤ n ∧
      bakedDivisor sq f n u ≠ 0 := by
  have hmono := lutF_mono sq f n hsq
  set lut := lutF sq f n with hlut
  have hL0 : 0 ≤ lut n := by
    have : lut 0 ≤ lut n := hmono (Nat.zero_le n)
    simpa [hlut, lutF] using this
  set target := u * lut n with htarget
  have htarget0 : 0 ≤ target := mul_nonneg hu0 hL0
  have htargetL : target ≤ lut n := by
    calc u * lut n ≤ 1 * lut n := mul_le_mul_of_nonneg_right hu1 hL0
    _ = lut n := one_mul _
  have hspec := bsearch_correct lut target hmono (n + 1) 0 n (by omega) (by omega)
    (fun j hj => absurd hj (Nat.not_lt_zero j))
    (fun j hj => le_trans htargetL (hmono hj))
  set r := bsearch lut target (n + 1) 0 n with hr
  have hnK : (0 : K) < (n : K) := by exact_mod_cast Nat.pos_of_ne_zero (by omega)
  have hidx : bakedIndex sq f n u = max 1 r := rfl
  rcases Nat.eq_zero_or_pos r with hr0 | hrpos
  · -- the search returned 0: the target is exactly 0 and t = 0
    have htz : target = 0 := by
      have h1 : target ≤ lut 0 := hr0 ▸ hspec.2.1
      have h2 : lut 0 = 0 := by simp [hlut, lutF]
      linarith [h1, htarget0, h2.le, h2.ge]
    have hiz : bakedIndex sq f n u = 1 := by rw [hidx, hr0]; simp
    have hl0 : lut 0 = 0 := by simp [hlut, lutF]
    have hparam : bakedParam sq f n u = 0 := by
      simp only [bakedParam, hiz, ← hlut, ← htarget, htz, hl0]
      norm_num
    refine ⟨?_, ?_, ?_, ?_, ?_, ?_⟩
    · simp only [lutPos, hiz, hparam, htz, hl0]
      norm_num
    · rw [hparam, hiz]; norm_num
    · rw [hparam, hiz]; positivity
    · rw [hiz]
    · rw [hiz]; exact hn
    · simp only [bakedDivisor]
      split
      · exact one_ne_zero
      · assumption
  · -- the search returned r ≥ 1: genuine bracket lut (r-1) < target ≤ lut r
    have hiz : bakedIndex sq f n u = r := by rw [hidx]; omega
    have hrn : r ≤ n := hspec.2.2.2
    have hl0lt : lut (r - 1) < target := hspec.1 (r - 1) (by omega)
    have hl1ge : target ≤ lut r := hspec.2.1
    have hseg : 0 < lut r - lut (r - 1) := by linarith
    have hsegne : lut r - lut (r - 1) ≠ 0 := ne_of_gt hseg
    have hdiv : bakedDivisor sq f n u = lut r - lut (r - 1) := by
      simp only [bakedDivisor, hiz, ← hlut, if_neg hsegne]
    have hcast : ((r - 1 : ℕ) : K) = (r : K) - 1 := by
      have : (1 : ℕ) ≤ r := hrpos
      push_cast [this]
      ring
    have ht1t0 : (r : K) / (n : K) - ((r - 1 : ℕ) : K) / (n : K) = 1 / (n : K) := by
      rw [hcast]; field_simp
    have hparam : bakedParam sq f n u =
        ((r - 1 : ℕ) : K) / (n : K) +
          1 / (n : K) * (target - lut (r - 1)) / (lut r - lut (r - 1)) := by
      simp only [bakedParam, hiz, ← hlut, ← htarget, hdiv, ht1t0]
    have hratio0 : 0 ≤ (target - lut (r - 1)) / (lut r - lut (r - 1)) :=
      div_nonneg (by linarith) hseg.le
    have hratio1 : (target - lut (r - 1)) / (lut r - lut (r - 1)) ≤ 1 := by
      rw [div_le_one hseg]; linarith
    refine ⟨?_, ?_, ?_, ?_, ?_, ?_⟩
    · simp only [lutPos, hiz, hparam, hcast]
      field_simp
      ring
    · rw [hparam, hiz]
      have : 0 ≤ 1 / (n : K) * (target - lut (r - 1)) / (lut r - lut (r - 1)) := by
        rw [mul_div_assoc]
        exact mul_nonneg (by positivity) hratio0
      linarith
    · rw [hparam, hiz]
      have h1 : 1 / (n : K) * (target - lut (r - 1)) / (lut r - lut (r - 1)) ≤
          1 / (n : K) := by
        rw [mul_div_assoc]
        calc 1 / (n : K) * ((target - lut (r - 1)) / (lut r - lut (r - 1)))
            ≤ 1 / (n : K) * 1 :=
              mul_le_mul_of_nonneg_left hratio1 (by positivity)
        _ = 1 / (n : K) := mul_one _
      have h2 : ((r - 1 : ℕ) : K) / (n : K) + 1 / (n : K) = (r : K) / (n : K) := by
        rw [hcast]; field_simp
      push_cast at h2
      linarith
    · rw [hiz]; exact hrpos
    · rw [hiz]; exact hrn
    · rw [hdiv]; exact hsegne

theorem cube_le_cube {a b : K} (ha : 0 ≤ a) (hab : a ≤ b) :
    a * a * a ≤ b * b * b := by
  nlinarith [mul_nonneg ha ha, mul_nonneg (ha.trans hab) (ha.trans hab),
    mul_nonneg ha (ha.trans hab)]

theorem sqrt_chord_x (x0 x1 : ℝ) (h : x0 ≤ x1) :
    Real.sqrt ((x1 - x0) ^ 2 + ((0 : ℝ) - 0) ^ 2 + ((0 : ℝ) - 0) ^ 2) = x1 - x0 := by
  rw [show (x1 - x0) ^ 2 + ((0 : ℝ) - 0) ^ 2 + ((0 : ℝ) - 0) ^ 2 = (x1 - x0) ^ 2 by ring,
    Real.sqrt_sq (by linarith)]

/-- The LUT of the `t³`-speed-up curve is exactly `i ↦ 100 (i/n)³`:
each chord is the x-increment because the curve runs along the x-axis
monotonically, so the square root collapses. -/
theorem lutF_cubic (n : ℕ) : ∀ i,
    lutF Real.sqrt (cubicSpeedup (K := ℝ)) n i = 100 * ((i : ℝ) / n) ^ 3 := by
  intro i
  induction i with
  | zero => simp [lutF]
  | succ i ih =>
    have hb : (0 : ℝ) ≤ (i : ℝ) / n := by positivity
    have hab : (i : ℝ) / n ≤ ((i : ℝ) + 1) / n := by
      rcases Nat.eq_zero_or_pos n with h0 | hpos
      · simp [h0]
      · have hn : (0 : ℝ) < n := by exact_mod_cast hpos
        gcongr
        linarith
    have hle : ((i : ℝ) / n) * ((i : ℝ) / n) * ((i : ℝ) / n) * 100 ≤
        (((i : ℝ) + 1) / n) * (((i : ℝ) + 1) / n) * (((i : ℝ) + 1) / n) * 100 := by
      have := cube_le_cube hb hab
      linarith
    simp only [lutF, jsDist, cubicSpeedup]
    rw [sqrt_chord_x _ _ hle, ih]
    push_cast
    ring

theorem samplePath_single_baked (sq : K → K) (f : K → Point K) (n : ℕ)
    (u₁ u₂ : K) (hL : pathTotalLength sq [Seg.baked f n] ≠ 0)
    (hsel : u₁ * pathTotalLength sq [Seg.baked f n] ≤ segLength sq (Seg.baked f n)) :
    samplePath sq [Seg.baked f n] u₁ (fun _ => u₂) = sampleBaked sq f n u₂ := by
  simp only [samplePath, pathLoop, if_neg hL]
  rw [if_pos hsel]
  rfl

/-- C10 — LUT-lookup safety: for every baked parametric segment (any
curve `f`, any resolution `n ≥ 1`, any nonnegative square root) and
every draw `u ∈ [0,1]` (hence every target `u * totalLength` in
`[0, totalLength]`), the divisor used by `_sampleBaked` is the
`|| 1`-guarded bracket length and is nonzero, and the interpolated
parameter lies in `[0, 1]`, so `_sampleBaked` evaluates the user's `f`
only inside its declared domain. -/
theorem claim_C10_lut_safety (sq : K → K) (f : K → Point K) (n : ℕ)
    (hn : 1 ≤ n) (hsq : ∀ x, 0 ≤ sq x) (u : K) (hu0 : 0 ≤ u) (hu1 : u ≤ 1) :
    bakedDivisor sq f n u ≠ 0 ∧
      0 ≤ bakedParam sq f n u ∧ bakedParam sq f n u ≤ 1 ∧
      sampleBaked sq f n u = f (bakedParam sq f n u) := by
  obtain ⟨_, hlo, hhi, _, hin, hdiv⟩ := bakedParam_inverts sq f n hn hsq u hu0 hu1
  have hnK : (0 : K) < (n : K) := by exact_mod_cast Nat.pos_of_ne_zero (by omega)
  refine ⟨hdiv, le_trans (by positivity) hlo, le_trans hhi ?_, rfl⟩
  rw [div_le_one hnK]
  exact_mod_cast hin

/-- C10 witness: the safety statement applied to a concrete baked
segment over `ℚ` (curve `t ↦ (t, 0, 0)`, resolution 2, draw 1/2). -/
theorem claim_C10_witness :
    bakedDivisor ratSqrt (fun t => (⟨t, 0, 0⟩ : Point ℚ)) 2 (1 / 2) ≠ 0 ∧
      0 ≤ bakedParam ratSqrt (fun t => (⟨t, 0, 0⟩ : Point ℚ)) 2 (1 / 2) ∧
      bakedParam ratSqrt (fun t => (⟨t, 0, 0⟩ : Point ℚ)) 2 (1 / 2) ≤ 1 ∧
      sampleBaked ratSqrt (fun t => (⟨t, 0, 0⟩ : Point ℚ)) 2 (1 / 2) =
        (fun t => (⟨t, 0, 0⟩ : Point ℚ)) (bakedParam ratSqrt (fun t => (⟨t, 0, 0⟩ : Point ℚ)) 2 (1 / 2)) :=
  claim_C10_lut_safety ratSqrt (fun t => (⟨t, 0, 0⟩ : Point ℚ)) 2 (by norm_num)
    ratSqrt_nonneg (1 / 2) (by norm_num) (by norm_num)

set_option maxHeartbeats 1600000 in
/-- C1 (corrected) — arc-length uniformity of the baked-LUT path
sampler.  (A) For every parametric segment, `_sampleBaked` inverts the
segment's LUT (binary search plus linear interpolation between the
bracketing entries) so that the chord-length arc position of the
produced parameter equals the segment-local target `u₂ * totalLength`
drawn by `_sampleBaked` itself (a fresh draw — not the target drawn by
`Path1D.sample`, which only selects the owning segment by cumulative
length).  (B) For the path built from `f(t) = (t³·100, 0)` the sampled
x-coordinate equals the fresh uniform target `100·u₂` up to one LUT gap
(`≤ 300/n`, so `≤ 0.3` at the test's resolution 1000) and lies in
`[0, 100]`: the sample is uniform along arc length up to that gap, with
mean x close to 50, not biased toward `t ≈ 0`. -/
theorem claim_C1_arc_length_uniformity (n : ℕ) (hn : 1 ≤ n)
    (u₁ u₂ : ℝ) (hu₁ : 0 ≤ u₁) (hu₁' : u₁ ≤ 1) (hu₂ : 0 ≤ u₂) (hu₂' : u₂ ≤ 1) :
    (∀ f : ℝ → Point ℝ,
      lutPos (lutF Real.sqrt f n) n (bakedIndex Real.sqrt f n u₂)
          (bakedParam Real.sqrt f n u₂) = u₂ * lutF Real.sqrt f n n) ∧
      |(samplePath Real.sqrt [Seg.baked cubicSpeedup n] u₁ fun _ => u₂).x - 100 * u₂|
          ≤ 300 / n ∧
      0 ≤ (samplePath Real.sqrt [Seg.baked cubicSpeedup n] u₁ fun _ => u₂).x ∧
      (samplePath Real.sqrt [Seg.baked cubicSpeedup n] u₁ fun _ => u₂).x ≤ 100 := by
  have hnK : (0 : ℝ) < (n : ℝ) := by exact_mod_cast Nat.pos_of_ne_zero (by omega)
  have hlut := lutF_cubic n
  have hLn : lutF Real.sqrt (cubicSpeedup (K := ℝ)) n n = 100 := by
    rw [hlut n, div_self (ne_of_gt hnK)]
    norm_num
  have hPL : pathTotalLength Real.sqrt [Seg.baked (cubicSpeedup (K := ℝ)) n] = 100 := by
    simp [pathTotalLength, segLength, hLn]
  have hsp : samplePath Real.sqrt [Seg.baked (cubicSpeedup (K := ℝ)) n] u₁ (fun _ => u₂) =
      sampleBaked Real.sqrt cubicSpeedup n u₂ := by
    apply samplePath_single_baked
    · rw [hPL]; norm_num
    · rw [hPL]
      show u₁ * 100 ≤ lutF Real.sqrt (cubicSpeedup (K := ℝ)) n n
      rw [hLn]; nlinarith
  obtain ⟨hpos, hlo, hhi, hi1, hin, _⟩ :=
    bakedParam_inverts Real.sqrt (cubicSpeedup (K := ℝ)) n hn Real.sqrt_nonneg u₂ hu₂ hu₂'
  set i := bakedIndex Real.sqrt (cubicSpeedup (K := ℝ)) n u₂ with hidef
  set t := bakedParam Real.sqrt (cubicSpeedup (K := ℝ)) n u₂ with htdef
  have hx : (sampleBaked Real.sqrt cubicSpeedup n u₂).x = t * t * t * 100 := rfl
  have hcast : ((i - 1 : ℕ) : ℝ) = (i : ℝ) - 1 := by
    have h : (1 : ℕ) ≤ i := hi1
    push_cast [h]
    ring
  have hiR : (1 : ℝ) ≤ (i : ℝ) := by exact_mod_cast hi1
  have hinR : (i : ℝ) ≤ (n : ℝ) := by exact_mod_cast hin
  have ht0 : (0 : ℝ) ≤ ((i : ℝ) - 1) / n := by
    apply div_nonneg (by linarith) hnK.le
  have hlo' : ((i : ℝ) - 1) / n ≤ t := by rw [← hcast]; exact hlo
  have h0t : 0 ≤ t := le_trans ht0 hlo'
  have hA : lutF Real.sqrt (cubicSpeedup (K := ℝ)) n (i - 1) =
      100 * (((i : ℝ) - 1) / n) ^ 3 := by rw [hlut (i - 1), hcast]
  have hB : lutF Real.sqrt (cubicSpeedup (K := ℝ)) n i =
      100 * ((i : ℝ) / n) ^ 3 := hlut i
  -- the sampled x lies inside the bracket [lut (i-1), lut i]
  have hxA : 100 * (((i : ℝ) - 1) / n) ^ 3 ≤ t * t * t * 100 := by
    have h2 := cube_le_cube ht0 hlo'
    nlinarith [h2]
  have hxB : t * t * t * 100 ≤ 100 * ((i : ℝ) / n) ^ 3 := by
    have h2 := cube_le_cube h0t hhi
    nlinarith [h2]
  -- the fresh target 100·u₂ lies inside the same bracket
  have hposx : lutPos (lutF Real.sqrt (cubicSpeedup (K := ℝ)) n) n i t = u₂ * 100 := by
    rw [hpos, hLn]
  have heq : 100 * (((i : ℝ) - 1) / n) ^ 3 +
      (t * (n : ℝ) - ((i : ℝ) - 1)) *
        (100 * ((i : ℝ) / n) ^ 3 - 100 * (((i : ℝ) - 1) / n) ^ 3) = u₂ * 100 := by
    have h := hposx
    simp only [lutPos, hA, hB, hcast] at h
    exact h
  have hs0 : 0 ≤ t * (n : ℝ) - ((i : ℝ) - 1) := by
    rw [div_le_iff hnK] at hlo'
    linarith
  have hs1 : t * (n : ℝ) - ((i : ℝ) - 1) ≤ 1 := by
    have h := hhi
    rw [le_div_iff hnK] at h
    linarith
  have hABle : 100 * (((i : ℝ) - 1) / n) ^ 3 ≤ 100 * ((i : ℝ) / n) ^ 3 := by
    have h1 : ((i : ℝ) - 1) / n ≤ (i : ℝ) / n := by gcongr <;> linarith
    have h2 := cube_le_cube ht0 h1
    nlinarith [h2]
  have htargetA : 100 * (((i : ℝ) - 1) / n) ^ 3 ≤ 100 * u₂ := by
    nlinarith [mul_nonneg hs0 (sub_nonneg.mpr hABle)]
  have htargetB : 100 * u₂ ≤ 100 * ((i : ℝ) / n) ^ 3 := by
    nlinarith [mul_le_mul_of_nonneg_right hs1 (sub_nonneg.mpr hABle)]
  -- one LUT gap is at most 300/n
  have hgap : 100 * ((i : ℝ) / n) ^ 3 - 100 * (((i : ℝ) - 1) / n) ^ 3 ≤ 300 / n := by
    have heq2 : 100 * ((i : ℝ) / n) ^ 3 - 100 * (((i : ℝ) - 1) / n) ^ 3 =
        (100 * (i : ℝ) ^ 3 - 100 * ((i : ℝ) - 1) ^ 3) / (n : ℝ) ^ 3 := by
      field_simp
    rw [heq2, div_le_div_iff (by positivity) hnK]
    have hI2 : (i : ℝ) ^ 2 ≤ (n : ℝ) ^ 2 := by nlinarith
    have h3 : 300 * (i : ℝ) ^ 2 - 300 * (i : ℝ) + 100 ≤ 300 * (n : ℝ) ^ 2 := by
      nlinarith
    calc (100 * (i : ℝ) ^ 3 - 100 * ((i : ℝ) - 1) ^ 3) * n
        = (300 * (i : ℝ) ^ 2 - 300 * (i : ℝ) + 100) * n := by ring
      _ ≤ 300 * (n : ℝ) ^ 2 * n := mul_le_mul_of_nonneg_right h3 hnK.le
      _ = 300 * (n : ℝ) ^ 3 := by ring
  have hB100 : 100 * ((i : ℝ) / n) ^ 3 ≤ 100 := by
    have h1 : (i : ℝ) / n ≤ 1 := by rw [div_le_one hnK]; exact hinR
    have h2 : ((i : ℝ) / n) ^ 3 ≤ 1 := by
      apply pow_le_one₀ (by positivity) h1
    linarith
  have hA0 : (0 : ℝ) ≤ 100 * (((i : ℝ) - 1) / n) ^ 3 := by positivity
  refine ⟨fun f => (bakedParam_inverts Real.sqrt f n hn Real.sqrt_nonneg u₂ hu₂ hu₂').1,
    ?_, ?_, ?_⟩ <;> rw [hsp, hx]
  · rw [abs_le]
    constructor <;> linarith
  · linarith
  · linarith

/-- C1 witness: the amended uniformity statement applied at `n = 2`,
`u₁ = u₂ = 1/2`. -/
theorem claim_C1_witness :
    (1 : ℕ) ≤ 2 ∧
      ((∀ f : ℝ → Point ℝ,
        lutPos (lutF Real.sqrt f 2) 2 (bakedIndex Real.sqrt f 2 (1 / 2))
            (bakedParam Real.sqrt f 2 (1 / 2)) = (1 / 2) * lutF Real.sqrt f 2 2) ∧
        |(samplePath Real.sqrt [Seg.baked cubicSpeedup 2] (1 / 2) fun _ => (1 / 2 : ℝ)).x -
            100 * (1 / 2)| ≤ 300 / ((2 : ℕ) : ℝ) ∧
        0 ≤ (samplePath Real.sqrt [Seg.baked cubicSpeedup 2] (1 / 2) fun _ => (1 / 2 : ℝ)).x ∧
        (samplePath Real.sqrt [Seg.baked cubicSpeedup 2] (1 / 2) fun _ => (1 / 2 : ℝ)).x ≤ 100) :=
  ⟨by norm_num,
    claim_C1_arc_length_uniformity 2 (by norm_num) (1 / 2) (1 / 2)
      (by norm_num) (by norm_num) (by norm_num) (by norm_num)⟩

/-- C1 counterexample: the claim as stated says the sampled point sits
at arc length equal to the target drawn from `[0, totalLength]` by
`Path1D.sample`.  For the `t³·100` path (resolution 2, so the curve runs
from x = 0 to x = 100 along the x-axis and a point's arc length is its
x-coordinate) with segment-selection draw `9/10` — claimed target
`0.9 · 100 = 90` — and fresh `_sampleBaked` draw 0, the code returns the
point `(0,0,0)`, at arc length 0, not 90: `_sampleBaked` ignores the
outer target and re-draws its own. -/
theorem claim_C1_counterexample :
    samplePath Real.sqrt [Seg.baked (cubicSpeedup (K := ℝ)) 2] (9 / 10) (fun _ => 0) =
        ⟨0, 0, 0⟩ ∧
      (9 / 10 : ℝ) * pathTotalLength Real.sqrt [Seg.baked (cubicSpeedup (K := ℝ)) 2] = 90 ∧
      ((0 : ℝ) ≠ 90) := by
  have hlut := lutF_cubic 2
  have h0 : lutF Real.sqrt (cubicSpeedup (K := ℝ)) 2 0 = 0 := by
    rw [hlut 0]; norm_num
  have h1 : lutF Real.sqrt (cubicSpeedup (K := ℝ)) 2 1 = 25 / 2 := by
    rw [hlut 1]; norm_num
  have h2 : lutF Real.sqrt (cubicSpeedup (K := ℝ)) 2 2 = 100 := by
    rw [hlut 2]; norm_num
  have hPL : pathTotalLength Real.sqrt [Seg.baked (cubicSpeedup (K := ℝ)) 2] = 100 := by
    simp [pathTotalLength, segLength, h2]
  have hbs : bsearch (lutF Real.sqrt (cubicSpeedup (K := ℝ)) 2) 0 3 0 2 = 0 := by
    have e1 : ¬ (lutF Real.sqrt (cubicSpeedup (K := ℝ)) 2 1 < 0) := by rw [h1]; norm_num
    have e0 : ¬ (lutF Real.sqrt (cubicSpeedup (K := ℝ)) 2 0 < 0) := by rw [h0]; norm_num
    norm_num [bsearch, e1, e0]
  have hbi : bakedIndex Real.sqrt (cubicSpeedup (K := ℝ)) 2 0 = 1 := by
    simp [bakedIndex, zero_mul, hbs]
  have hbp : bakedParam Real.sqrt (cubicSpeedup (K := ℝ)) 2 0 = 0 := by
    simp [bakedParam, hbi, zero_mul, h0]
  have hsp := samplePath_single_baked Real.sqrt (cubicSpeedup (K := ℝ)) 2 (9 / 10) 0
    (by rw [hPL]; norm_num)
    (by rw [hPL]
        show (9 / 10 : ℝ) * 100 ≤ lutF Real.sqrt (cubicSpeedup (K := ℝ)) 2 2
        rw [h2]; norm_num)
  refine ⟨?_, by rw [hPL]; norm_num, by norm_num⟩
  rw [hsp]
  simp [sampleBaked, hbp, cubicSpeedup]

/-- C7 counterexample — negative dimensions: `Rectangle2D` with width
−2 has area −2 (not 0), and its `sample()` at draws `(0, 1/2)` returns
`(1, 0, 0)`, not its center `(0,0,0)`. -/
theorem claim_C7_counterexample :
    Rectangle2D.area (⟨⟨0, 0, 0⟩, -2, 1⟩ : Rectangle2D ℚ) = -2 ∧
      Rectangle2D.sample (⟨⟨0, 0, 0⟩, -2, 1⟩ : Rectangle2D ℚ) 0 (1 / 2) = ⟨1, 0, 0⟩ ∧
      ((-2 : ℚ) ≠ 0) ∧ ((⟨1, 0, 0⟩ : Point ℚ) ≠ ⟨0, 0, 0⟩) := by
  refine ⟨?_, ?_, by norm_num, by simp⟩
  · norm_num [Rectangle2D.area]
  · show Point.mk _ _ _ = _
    norm_num [Rectangle2D.sample]

/-- C7 (corrected) — degenerate primitives: with all dimensions ZERO,
`EllipseSector2D.sample` and `Rectangle2D.sample` return the shape's
center for every outcome of the draws, and the area is 0; the samplers
perform no division.  (Negative dimensions are not clamped by the code:
area goes negative and samples leave the center — see the
counterexample.) -/
theorem claim_C7_degenerate_zero [FloorRing K] (c : Point K) (a0 a1 u1 u2 : K)
    (sq cosF sinF : K → K) (pi : K) :
    EllipseSector2D.sample sq cosF sinF pi ⟨c, 0, 0, a0, a1⟩ u1 u2 = c ∧
      EllipseSector2D.area pi ⟨c, 0, 0, a0, a1⟩ = 0 ∧
      Rectangle2D.sample ⟨c, 0, 0⟩ u1 u2 = c ∧
      Rectangle2D.area (⟨c, 0, 0⟩ : Rectangle2D K) = 0 := by
  refine ⟨?_, ?_, ?_, ?_⟩
  · show Point.mk _ _ _ = c
    simp [EllipseSector2D.sample]
  · simp [EllipseSector2D.area]
  · show Point.mk _ _ _ = c
    simp [Rectangle2D.sample]
  · simp [Rectangle2D.area]

/-- C7 witness: the zero-dimension statement applied to a concrete
sector and rectangle over `ℚ`. -/
theorem claim_C7_witness :
    EllipseSector2D.sample ratSqrt id id 3 ⟨⟨4, 5, 6⟩, 0, 0, 0, 1⟩ (1 / 2) (1 / 2) =
        (⟨4, 5, 6⟩ : Point ℚ) ∧
      EllipseSector2D.area 3 (⟨⟨4, 5, 6⟩, 0, 0, 0, 1⟩ : EllipseSector2D ℚ) = 0 ∧
      Rectangle2D.sample ⟨⟨4, 5, 6⟩, 0, 0⟩ (1 / 2) (1 / 2) = (⟨4, 5, 6⟩ : Point ℚ) ∧
      Rectangle2D.area (⟨⟨4, 5, 6⟩, 0, 0⟩ : Rectangle2D ℚ) = 0 :=
  claim_C7_degenerate_zero (⟨4, 5, 6⟩ : Point ℚ) 0 1 (1 / 2) (1 / 2) ratSqrt id id 3

/-- C9 (corrected) — translation semantics: `contains` subtracts the
offset before delegating to the base shape's `contains`; `sample` adds
the offset to the base sample; `area`/`volume` pass through unchanged;
a base bbox carrying both z bounds is shifted by the offset, while a
z-less base bbox (every 2D shape of the library) receives the
synthesized bounds `minZ = maxZ = baseCenter.z + 2·dz`: the source's
`?? this.center.z` fallback reads the already-translated center and
then adds `dz` again, so the bbox is NOT always "shifted by v" (see
the counterexample).  Translating twice agrees with translating once by
the vector sum on `contains` at every point, on `sample` at every base
draw, and on `center`/`area`/`volume`; the two are equal as whole
records whenever the base has no bbox or a bbox with both z bounds. -/
theorem claim_C9_translation (b : DuckShape K) (dx dy dz dx2 dy2 dz2 : K)
    (p : Point K) (eps : K) (f : Point K → K → Bool) (hb : b.containsF = some f) (k : ℕ) :
    ((TranslatedShape b dx dy dz).containsF.getD (fun _ _ => false)) p eps
        = f ⟨p.x - dx, p.y - dy, p.z - dz⟩ eps ∧
      (TranslatedShape b dx dy dz).sample k =
        ⟨(b.sample k).x + dx, (b.sample k).y + dy, (b.sample k).z + dz⟩ ∧
      (TranslatedShape b dx dy dz).area = b.area ∧
      (TranslatedShape b dx dy dz).volume = b.volume ∧
      (∀ (bb : JsBBox K) (z1 z2 : K), b.bbox = some bb → bb.minZ = some z1 →
        bb.maxZ = some z2 →
        (TranslatedShape b dx dy dz).bbox =
          some ⟨bb.minX + dx, bb.maxX + dx, bb.minY + dy, bb.maxY + dy,
            some (z1 + dz), some (z2 + dz)⟩) ∧
      (∀ (bb : JsBBox K) (c : Point K), b.bbox = some bb → bb.minZ = none →
        bb.maxZ = none → b.center = some c →
        (TranslatedShape b dx dy dz).bbox =
          some ⟨bb.minX + dx, bb.maxX + dx, bb.minY + dy, bb.maxY + dy,
            some (c.z + dz + dz), some (c.z + dz + dz)⟩) ∧
      (∀ q e, ((TranslatedShape (TranslatedShape b dx dy dz) dx2 dy2 dz2).containsF.getD
            (fun _ _ => false)) q e =
          ((TranslatedShape b (dx + dx2) (dy + dy2) (dz + dz2)).containsF.getD
            (fun _ _ => false)) q e) ∧
      (∀ j, (TranslatedShape (TranslatedShape b dx dy dz) dx2 dy2 dz2).sample j =
          (TranslatedShape b (dx + dx2) (dy + dy2) (dz + dz2)).sample j) ∧
      (TranslatedShape (TranslatedShape b dx dy dz) dx2 dy2 dz2).center =
        (TranslatedShape b (dx + dx2) (dy + dy2) (dz + dz2)).center ∧
      (TranslatedShape (TranslatedShape b dx dy dz) dx2 dy2 dz2).area =
        (TranslatedShape b (dx + dx2) (dy + dy2) (dz + dz2)).area ∧
      (TranslatedShape (TranslatedShape b dx dy dz) dx2 dy2 dz2).volume =
        (TranslatedShape b (dx + dx2) (dy + dy2) (dz + dz2)).volume ∧
      ((b.bbox = none ∨ ∃ (bb : JsBBox K) (z1 z2 : K), b.bbox = some bb ∧
          bb.minZ = some z1 ∧ bb.maxZ = some z2) →
        TranslatedShape (TranslatedShape b dx dy dz) dx2 dy2 dz2 =
          TranslatedShape b (dx + dx2) (dy + dy2) (dz + dz2)) := by
  have hcont2 : (TranslatedShape (TranslatedShape b dx dy dz) dx2 dy2 dz2).containsF =
      (TranslatedShape b (dx + dx2) (dy + dy2) (dz + dz2)).containsF := by
    show some _ = some _
    refine congrArg some ?_
    funext q e
    simp only [TranslatedShape]
    cases b.containsF with
    | none => rfl
    | some g =>
      show g ⟨q.x - dx2 - dx, q.y - dy2 - dy, q.z - dz2 - dz⟩ e = g _ e
      congr 1
      simp only [Point.mk.injEq]
      refine ⟨by ring, by ring, by ring⟩
  have hsample2 : ∀ j, (TranslatedShape (TranslatedShape b dx dy dz) dx2 dy2 dz2).sample j =
      (TranslatedShape b (dx + dx2) (dy + dy2) (dz + dz2)).sample j := by
    intro j
    simp only [TranslatedShape, Point.mk.injEq]
    refine ⟨by ring, by ring, by ring⟩
  have hcenter2 : (TranslatedShape (TranslatedShape b dx dy dz) dx2 dy2 dz2).center =
      (TranslatedShape b (dx + dx2) (dy + dy2) (dz + dz2)).center := by
    simp only [TranslatedShape]
    refine congrArg some ?_
    cases b.center with
    | none => rfl
    | some c =>
      show Point.mk _ _ _ = Point.mk _ _ _
      simp only [Point.mk.injEq]
      refine ⟨by ring, by ring, by ring⟩
  refine ⟨by simp [TranslatedShape, hb], rfl, rfl, rfl, ?_, ?_,
    fun q e => by rw [hcont2], hsample2, hcenter2, rfl, rfl, ?_⟩
  · intro bb z1 z2 hbb h1 h2
    simp only [TranslatedShape, hbb, h1, h2, Option.getD_some]
  · intro bb c hbb h1 h2 hc
    simp only [TranslatedShape, hbb, h1, h2, hc, Option.getD_none]
  · intro h
    refine DuckShape.ext (funext hsample2) hcont2 rfl rfl hcenter2 ?_
    rcases h with hnone | ⟨bb, z1, z2, hbb, h1, h2⟩
    · simp only [TranslatedShape, hnone]
    · simp only [TranslatedShape, hbb, h1, h2, Option.getD_some]
      refine congrArg some ?_
      simp only [JsBBox.mk.injEq, Option.some.injEq]
      refine ⟨by ring, by ring, by ring, by ring, by ring, by ring⟩

/-- C9 witness: the translation statement applied to a concrete duck
shape over `ℚ` whose bbox carries both z bounds, with offsets `(1,1,1)`
then `(2,2,2)`. -/
theorem claim_C9_witness :
    ((TranslatedShape (⟨fun _ => ⟨1, 2, 3⟩, some fun _ _ => true, 7, 8, some ⟨0, 0, 0⟩,
          some ⟨0, 1, 0, 1, some 0, some 1⟩⟩ : DuckShape ℚ) 1 1 1).containsF.getD
        (fun _ _ => false)) ⟨1, 0, 0⟩ 0 = true ∧
      (TranslatedShape (⟨fun _ => ⟨1, 2, 3⟩, some fun _ _ => true, 7, 8, some ⟨0, 0, 0⟩,
          some ⟨0, 1, 0, 1, some 0, some 1⟩⟩ : DuckShape ℚ) 1 1 1).sample 0 =
        ⟨1 + 1, 2 + 1, 3 + 1⟩ ∧
      (TranslatedShape (⟨fun _ => ⟨1, 2, 3⟩, some fun _ _ => true, 7, 8, some ⟨0, 0, 0⟩,
          some ⟨0, 1, 0, 1, some 0, some 1⟩⟩ : DuckShape ℚ) 1 1 1).area = 7 ∧
      (TranslatedShape (⟨fun _ => ⟨1, 2, 3⟩, some fun _ _ => true, 7, 8, some ⟨0, 0, 0⟩,
          some ⟨0, 1, 0, 1, some 0, some 1⟩⟩ : DuckShape ℚ) 1 1 1).volume = 8 ∧
      (∀ (bb : JsBBox ℚ) (z1 z2 : ℚ),
        (⟨fun _ => ⟨1, 2, 3⟩, some fun _ _ => true, 7, 8, some ⟨0, 0, 0⟩,
          some ⟨0, 1, 0, 1, some 0, some 1⟩⟩ : DuckShape ℚ).bbox = some bb →
        bb.minZ = some z1 → bb.maxZ = some z2 →
        (TranslatedShape (⟨fun _ => ⟨1, 2, 3⟩, some fun _ _ => true, 7, 8, some ⟨0, 0, 0⟩,
          some ⟨0, 1, 0, 1, some 0, some 1⟩⟩ : DuckShape ℚ) 1 1 1).bbox =
          some ⟨bb.minX + 1, bb.maxX + 1, bb.minY + 1, bb.maxY + 1,
            some (z1 + 1), some (z2 + 1)⟩) ∧
      (∀ (bb : JsBBox ℚ) (c : Point ℚ),
        (⟨fun _ => ⟨1, 2, 3⟩, some fun _ _ => true, 7, 8, some ⟨0, 0, 0⟩,
          some ⟨0, 1, 0, 1, some 0, some 1⟩⟩ : DuckShape ℚ).bbox = some bb →
        bb.minZ = none → bb.maxZ = none →
        (⟨fun _ => ⟨1, 2, 3⟩, some fun _ _ => true, 7, 8, some ⟨0, 0, 0⟩,
          some ⟨0, 1, 0, 1, some 0, some 1⟩⟩ : DuckShape ℚ).center = some c →
        (TranslatedShape (⟨fun _ => ⟨1, 2, 3⟩, some fun _ _ => true, 7, 8, some ⟨0, 0, 0⟩,
          some ⟨0, 1, 0, 1, some 0, some 1⟩⟩ : DuckShape ℚ) 1 1 1).bbox =
          some ⟨bb.minX + 1, bb.maxX + 1, bb.minY + 1, bb.maxY + 1,
            some (c.z + 1 + 1), some (c.z + 1 + 1)⟩) ∧
      (∀ (q : Point ℚ) (e : ℚ),
        ((TranslatedShape (TranslatedShape (⟨fun _ => ⟨1, 2, 3⟩, some fun _ _ => true, 7, 8,
            some ⟨0, 0, 0⟩, some ⟨0, 1, 0, 1, some 0, some 1⟩⟩ : DuckShape ℚ) 1 1 1)
            2 2 2).containsF.getD (fun _ _ => false)) q e =
          ((TranslatedShape (⟨fun _ => ⟨1, 2, 3⟩, some fun _ _ => true, 7, 8, some ⟨0, 0, 0⟩,
            some ⟨0, 1, 0, 1, some 0, some 1⟩⟩ : DuckShape ℚ) (1 + 2) (1 + 2)
            (1 + 2)).containsF.getD (fun _ _ => false)) q e) ∧
      (∀ j, (TranslatedShape (TranslatedShape (⟨fun _ => ⟨1, 2, 3⟩, some fun _ _ => true, 7, 8,
            some ⟨0, 0, 0⟩, some ⟨0, 1, 0, 1, some 0, some 1⟩⟩ : DuckShape ℚ) 1 1 1)
            2 2 2).sample j =
          (TranslatedShape (⟨fun _ => ⟨1, 2, 3⟩, some fun _ _ => true, 7, 8, some ⟨0, 0, 0⟩,
            some ⟨0, 1, 0, 1, some 0, some 1⟩⟩ : DuckShape ℚ) (1 + 2) (1 + 2) (1 + 2)).sample j) ∧
      (TranslatedShape (TranslatedShape (⟨fun _ => ⟨1, 2, 3⟩, some fun _ _ => true, 7, 8,
          some ⟨0, 0, 0⟩, some ⟨0, 1, 0, 1, some 0, some 1⟩⟩ : DuckShape ℚ) 1 1 1)
          2 2 2).center =
        (TranslatedShape (⟨fun _ => ⟨1, 2, 3⟩, some fun _ _ => true, 7, 8, some ⟨0, 0, 0⟩,
          some ⟨0, 1, 0, 1, some 0, some 1⟩⟩ : DuckShape ℚ) (1 + 2) (1 + 2) (1 + 2)).center ∧
      (TranslatedShape (TranslatedShape (⟨fun _ => ⟨1, 2, 3⟩, some fun _ _ => true, 7, 8,
          some ⟨0, 0, 0⟩, some ⟨0, 1, 0, 1, some 0, some 1⟩⟩ : DuckShape ℚ) 1 1 1)
          2 2 2).area =
        (TranslatedShape (⟨fun _ => ⟨1, 2, 3⟩, some fun _ _ => true, 7, 8, some ⟨0, 0, 0⟩,
          some ⟨0, 1, 0, 1, some 0, some 1⟩⟩ : DuckShape ℚ) (1 + 2) (1 + 2) (1 + 2)).area ∧
      (TranslatedShape (TranslatedShape (⟨fun _ => ⟨1, 2, 3⟩, some fun _ _ => true, 7, 8,
          some ⟨0, 0, 0⟩, some ⟨0, 1, 0, 1, some 0, some 1⟩⟩ : DuckShape ℚ) 1 1 1)
          2 2 2).volume =
        (TranslatedShape (⟨fun _ => ⟨1, 2, 3⟩, some fun _ _ => true, 7, 8, some ⟨0, 0, 0⟩,
          some ⟨0, 1, 0, 1, some 0, some 1⟩⟩ : DuckShape ℚ) (1 + 2) (1 + 2) (1 + 2)).volume ∧
      (((⟨fun _ => ⟨1, 2, 3⟩, some fun _ _ => true, 7, 8, some ⟨0, 0, 0⟩,
          some ⟨0, 1, 0, 1, some 0, some 1⟩⟩ : DuckShape ℚ).bbox = none ∨
        ∃ (bb : JsBBox ℚ) (z1 z2 : ℚ),
          (⟨fun _ => ⟨1, 2, 3⟩, some fun _ _ => true, 7, 8, some ⟨0, 0, 0⟩,
            some ⟨0, 1, 0, 1, some 0, some 1⟩⟩ : DuckShape ℚ).bbox = some bb ∧
          bb.minZ = some z1 ∧ bb.maxZ = some z2) →
        TranslatedShape (TranslatedShape (⟨fun _ => ⟨1, 2, 3⟩, some fun _ _ => true, 7, 8,
            some ⟨0, 0, 0⟩, some ⟨0, 1, 0, 1, some 0, some 1⟩⟩ : DuckShape ℚ) 1 1 1) 2 2 2 =
          TranslatedShape (⟨fun _ => ⟨1, 2, 3⟩, some fun _ _ => true, 7, 8, some ⟨0, 0, 0⟩,
            some ⟨0, 1, 0, 1, some 0, some 1⟩⟩ : DuckShape ℚ) (1 + 2) (1 + 2) (1 + 2)) :=
  claim_C9_translation _ 1 1 1 2 2 2 ⟨1, 0, 0⟩ 0 (fun _ _ => true) rfl 0

/-- C9 counterexample: a base with a z-less bbox (the 2D-shape case),
center `(0,0,0)`, translated by `dz = 1`.  Every translated sample sits
at `z = 1`, but the produced bbox has `minZ = maxZ = 2` — the base
center z plus `2·dz`, not a shift by `dz` — so "bbox is shifted by v"
fails (the bbox even misses its own shape); and translating twice by
`dz = 1` produces bbox z bounds `3` while translating once by `dz = 2`
produces `4`, so the nested and the single translation are not
equivalent records either. -/
theorem claim_C9_counterexample :
    (TranslatedShape (⟨fun _ => ⟨0, 0, 0⟩, some fun _ _ => true, 1, 1, some ⟨0, 0, 0⟩,
        some ⟨0, 1, 0, 1, none, none⟩⟩ : DuckShape ℚ) 0 0 1).bbox =
      some ⟨0, 1, 0, 1, some 2, some 2⟩ ∧
      (TranslatedShape (⟨fun _ => ⟨0, 0, 0⟩, some fun _ _ => true, 1, 1, some ⟨0, 0, 0⟩,
          some ⟨0, 1, 0, 1, none, none⟩⟩ : DuckShape ℚ) 0 0 1).sample 0 = ⟨0, 0, 1⟩ ∧
      ((2 : ℚ) ≠ 0 + 1) ∧
      (TranslatedShape (TranslatedShape (⟨fun _ => ⟨0, 0, 0⟩, some fun _ _ => true, 1, 1,
          some ⟨0, 0, 0⟩, some ⟨0, 1, 0, 1, none, none⟩⟩ : DuckShape ℚ) 0 0 1) 0 0 1).bbox ≠
        (TranslatedShape (⟨fun _ => ⟨0, 0, 0⟩, some fun _ _ => true, 1, 1, some ⟨0, 0, 0⟩,
          some ⟨0, 1, 0, 1, none, none⟩⟩ : DuckShape ℚ) 0 0 (1 + 1)).bbox := by
  refine ⟨?_, ?_, by norm_num, ?_⟩
  · show some (JsBBox.mk _ _ _ _ _ _) = _
    simp only [TranslatedShape, Option.getD_none, Option.some.injEq, JsBBox.mk.injEq]
    norm_num
  · show Point.mk _ _ _ = _
    simp only [TranslatedShape, Point.mk.injEq]
    norm_num
  · have hL : (TranslatedShape (TranslatedShape (⟨fun _ => ⟨0, 0, 0⟩, some fun _ _ => true,
        1, 1, some ⟨0, 0, 0⟩, some ⟨0, 1, 0, 1, none, none⟩⟩ : DuckShape ℚ) 0 0 1)
        0 0 1).bbox = some ⟨0, 1, 0, 1, some 3, some 3⟩ := by
      show some (JsBBox.mk _ _ _ _ _ _) = _
      simp only [TranslatedShape, Option.getD_none, Option.getD_some, Option.some.injEq,
        JsBBox.mk.injEq]
      norm_num
    have hR : (TranslatedShape (⟨fun _ => ⟨0, 0, 0⟩, some fun _ _ => true, 1, 1,
        some ⟨0, 0, 0⟩, some ⟨0, 1, 0, 1, none, none⟩⟩ : DuckShape ℚ) 0 0 (1 + 1)).bbox =
        some ⟨0, 1, 0, 1, some 4, some 4⟩ := by
      show some (JsBBox.mk _ _ _ _ _ _) = _
      simp only [TranslatedShape, Option.getD_none, Option.some.injEq, JsBBox.mk.injEq]
      norm_num
    rw [hL, hR]
    simp only [ne_eq, Option.some.injEq, JsBBox.mk.injEq]
    norm_num

/-- C5 (code bug) — containment closure fails: for the ellipse sector
with `rx = 100`, `ry = 1`, angles `[0, 0.8]`, the point that `sample()`
produces at draws `u1 = 5π/16` (parameter angle `t = π/4`) and
`u2 = 1/4` is rejected by `contains` with the default epsilon:
`contains` recovers the angle as `atan2(dy*rx, dx*ry) = arctan 100 >
π/3 > 0.8 + ε`, distorting the parameter angle `π/4` that `sample`
used, because the source multiplies `dy` by `rx` and `dx` by `ry`
(instead of un-distorting with `atan2(dy, dx)`).  Both draws are valid
`Math.random()` outcomes (they lie in `[0,1)`). -/
theorem claim_C5_closure_fails :
    EllipseSector2D.contains Real.arctan Real.pi
        (⟨⟨0, 0, 0⟩, 100, 1, 0, 4 / 5⟩ : EllipseSector2D ℝ)
        (EllipseSector2D.sample Real.sqrt Real.cos Real.sin Real.pi
          (⟨⟨0, 0, 0⟩, 100, 1, 0, 4 / 5⟩ : EllipseSector2D ℝ)
          (5 * Real.pi / 16) (1 / 4))
        defaultEps = false ∧
      0 ≤ 5 * Real.pi / 16 ∧ 5 * Real.pi / 16 < 1 ∧
      0 ≤ (1 / 4 : ℝ) ∧ (1 / 4 : ℝ) < 1 := by
  have hpi := Real.pi_pos
  have hpi3 := Real.pi_gt_three
  have hpi315 := Real.pi_lt_315
  have hs2 : Real.sqrt 2 * Real.sqrt 2 = 2 := Real.mul_self_sqrt (by norm_num)
  have hs2pos : 0 < Real.sqrt 2 := Real.sqrt_pos.mpr (by norm_num)
  refine ⟨?_, by positivity, by nlinarith, by norm_num, by norm_num⟩
  -- the sampled point
  have hwd : wrapDelta Real.pi 0 (4 / 5 : ℝ) = 4 / 5 := by
    norm_num [wrapDelta]
  have hangle : (0 : ℝ) + 5 * Real.pi / 16 * (4 / 5) = Real.pi / 4 := by ring
  have htrunc : jsTrunc ((Real.pi / 4) / (2 * Real.pi)) = 0 := by
    have h8 : (Real.pi / 4) / (2 * Real.pi) = 1 / 8 := by
      field_simp
      ring
    rw [jsTrunc, if_pos (by rw [h8]; norm_num)]
    rw [h8]
    exact Int.floor_eq_zero_iff.mpr (by constructor <;> norm_num)
  have hmod : jsMod (Real.pi / 4) (2 * Real.pi) = Real.pi / 4 := by
    rw [jsMod, htrunc]
    push_cast
    ring
  have hsqrt4 : Real.sqrt (1 / 4) = 1 / 2 := by
    rw [show (1 / 4 : ℝ) = (1 / 2) ^ 2 by norm_num, Real.sqrt_sq (by norm_num)]
  have hcos : Real.cos (Real.pi / 4) = Real.sqrt 2 / 2 := Real.cos_pi_div_four
  have hsin : Real.sin (Real.pi / 4) = Real.sqrt 2 / 2 := Real.sin_pi_div_four
  have hsample : EllipseSector2D.sample Real.sqrt Real.cos Real.sin Real.pi
      (⟨⟨0, 0, 0⟩, 100, 1, 0, 4 / 5⟩ : EllipseSector2D ℝ)
      (5 * Real.pi / 16) (1 / 4) =
      ⟨25 * Real.sqrt 2, Real.sqrt 2 / 4, 0⟩ := by
    simp only [EllipseSector2D.sample, hwd, hangle, hmod, hsqrt4, hcos, hsin]
    refine Point.ext (by simp only []; ring) (by simp only []; ring) rfl
  rw [hsample]
  -- evaluate contains on that point
  have harctan : (4 / 5 : ℝ) + defaultEps < Real.arctan 100 := by
    have h3 : Real.arctan (Real.sqrt 3) = Real.pi / 3 := by
      rw [← Real.tan_pi_div_three]
      exact Real.arctan_tan (by linarith) (by linarith)
    have hs3 : Real.sqrt 3 < 100 := by
      nlinarith [Real.sq_sqrt (by norm_num : (0:ℝ) ≤ 3), Real.sqrt_nonneg (3 : ℝ)]
    have hmono : Real.arctan (Real.sqrt 3) < Real.arctan 100 :=
      Real.arctan_strictMono hs3
    rw [h3] at hmono
    rw [defaultEps]
    nlinarith
  have harctanpos : (0 : ℝ) ≤ Real.arctan 100 := by
    have := Real.arctan_strictMono (show (0 : ℝ) < 100 by norm_num)
    rw [Real.arctan_zero] at this
    linarith
  simp only [EllipseSector2D.contains]
  have hdx : (25 * Real.sqrt 2 - (0:ℝ)) / 100 = Real.sqrt 2 / 4 := by ring
  rw [hdx]
  have hdy : (Real.sqrt 2 / 4 - (0:ℝ)) / 1 = Real.sqrt 2 / 4 := by ring
  rw [hdy]
  have hsum : Real.sqrt 2 / 4 * (Real.sqrt 2 / 4) + Real.sqrt 2 / 4 * (Real.sqrt 2 / 4) =
      1 / 4 := by
    nlinarith [hs2]
  rw [hsum, if_neg (by rw [defaultEps]; norm_num)]
  have hx : Real.sqrt 2 / 4 * (1 : ℝ) = Real.sqrt 2 / 4 := by ring
  have hy : Real.sqrt 2 / 4 * (100 : ℝ) = 25 * Real.sqrt 2 := by ring
  rw [hx, hy]
  have hat2 : jsAtan2 Real.arctan Real.pi (25 * Real.sqrt 2) (Real.sqrt 2 / 4) =
      Real.arctan 100 := by
    rw [jsAtan2, if_pos (by positivity)]
    congr 1
    rw [div_eq_iff (by positivity : (Real.sqrt 2 / 4) ≠ 0)]
    ring
  rw [hat2]
  have hth : (if Real.arctan 100 < 0 then Real.arctan 100 + 2 * Real.pi
      else Real.arctan 100) = Real.arctan 100 :=
    if_neg (by push_neg; exact harctanpos)
  rw [hth, if_pos (show (0 : ℝ) ≤ 4 / 5 by norm_num), decide_eq_false_iff_not]
  rintro ⟨-, h2⟩
  linarith

/-!
## CSG layer lemmas
-/

theorem selectIndexOpt_lt {ws : List K} {r : K} {i j : ℕ}
    (h : selectIndexOpt ws r i = some j) : i ≤ j ∧ j < i + ws.length := by
  induction ws generalizing r i with
  | nil => simp [selectIndexOpt] at h
  | cons w ws ih =>
    simp only [selectIndexOpt] at h
    split at h
    · simp only [Option.some.injEq] at h
      subst h
      simp only [List.length_cons]
      omega
    · obtain ⟨h1, h2⟩ := ih h
      simp only [List.length_cons]
      omega

theorem selectIndex_lt (ws : List K) (r : K) (hws : ws ≠ []) :
    selectIndex ws r < ws.length := by
  unfold selectIndex
  cases hopt : selectIndexOpt ws r 0 with
  | none =>
    simpa using List.length_pos.mpr hws
  | some j =>
    have hj := selectIndexOpt_lt hopt
    simp only [Option.getD_some]
    omega

theorem alreadyCovered_false {shapes : List (CShape K)} {i : ℕ} {p : Point K}
    (h : alreadyCovered shapes i p = false) :
    ∀ j, j < i → (getShape shapes j).contains p = false := by
  intro j hj
  rw [alreadyCovered, List.any_eq_false] at h
  have := h j (List.mem_range.mpr hj)
  simpa using this

theorem sampleUnionGo_spec (s : CShape K) (rest : List (CShape K))
    (weights : List K) (hwl : weights.length = (s :: rest).length) (total : K)
    (rs : ℕ → K) :
    ∀ n k, ∃ p i k', sampleUnionGo (s :: rest) weights total rs n k = .ok p ∧
      i < (s :: rest).length ∧ p = (getShape (s :: rest) i).sample k' ∧
      ∀ j, j < i → (getShape (s :: rest) j).contains p = false := by
  have hwne : weights ≠ [] := by
    intro hempty
    rw [hempty] at hwl
    simp at hwl
  intro n
  induction n with
  | zero =>
    intro k
    exact ⟨s.sample k, 0, k, rfl, by simp, rfl, fun j hj => absurd hj (Nat.not_lt_zero j)⟩
  | succ n ih =>
    intro k
    simp only [sampleUnionGo]
    by_cases hc : alreadyCovered (s :: rest) (selectIndex weights (rs k * total))
        ((getShape (s :: rest) (selectIndex weights (rs k * total))).sample k) = true
    · rw [if_pos hc]
      exact ih (k + 1)
    · rw [if_neg hc]
      refine ⟨_, selectIndex weights (rs k * total), k, rfl, ?_, rfl, ?_⟩
      · rw [← hwl]
        exact selectIndex_lt weights _ hwne
      · exact alreadyCovered_false (by simpa using hc)

/-- C3 (confirmed) — union earlier-index rejection with soft fallback:
for every nonempty list of child shapes and every random stream,
`sampleUnion` returns `Except.ok` of a point drawn from some child `i`
(never an error — it never throws), and that point is not
`contains()`-true in any child of smaller index; when every attempt is
rejected the fallback `shapes[0].sample()` is returned, which vacuously
satisfies the earlier-index property (`i = 0` has no earlier children). -/
theorem claim_C3_union_soft_fallback (shapes : List (CShape K)) (hne : shapes ≠ [])
    (maxAttempts : ℕ) (rs : ℕ → K) :
    ∃ p i k, sampleUnion shapes maxAttempts rs = .ok p ∧
      i < shapes.length ∧ p = (getShape shapes i).sample k ∧
      ∀ j, j < i → (getShape shapes j).contains p = false := by
  cases shapes with
  | nil => exact absurd rfl hne
  | cons s rest =>
    obtain ⟨p, i, k, h1, h2, h3, h4⟩ := sampleUnionGo_spec s rest
      ((s :: rest).map (·.weight)) (by simp) (((s :: rest).map (·.weight)).sum)
      rs maxAttempts 0
    exact ⟨p, i, k, h1, h2, h3, h4⟩

/-- C3 witness: a concrete one-child union over `ℚ`. -/
theorem claim_C3_witness :
    ∃ p i k, sampleUnion [(⟨fun j => ⟨j, 0, 0⟩, fun _ => true, 1, ⟨0, 0, 0, 0, 0, 0⟩⟩ :
        CShape ℚ)] 3 (fun _ => 1 / 2) = .ok p ∧
      i < 1 ∧
      p = (getShape [(⟨fun j => ⟨j, 0, 0⟩, fun _ => true, 1, ⟨0, 0, 0, 0, 0, 0⟩⟩ :
        CShape ℚ)] i).sample k ∧
      ∀ j, j < i → (getShape [(⟨fun j => ⟨j, 0, 0⟩, fun _ => true, 1,
        ⟨0, 0, 0, 0, 0, 0⟩⟩ : CShape ℚ)] j).contains p = false := by
  have h := claim_C3_union_soft_fallback
    [(⟨fun j => ⟨j, 0, 0⟩, fun _ => true, 1, ⟨0, 0, 0, 0, 0, 0⟩⟩ : CShape ℚ)]
    (by simp) 3 (fun _ => 1 / 2)
  simpa using h

theorem sampleUnionZeroAux (s : CShape K) (rest : List (CShape K))
    (hz : ∀ t ∈ s :: rest, t.weight = 0) (n : ℕ) (rs : ℕ → K) :
    sampleUnion (s :: rest) (n + 1) rs = .ok (s.sample 0) := by
  have htot : (((s :: rest).map (·.weight)).sum : K) = 0 := by
    apply List.sum_eq_zero
    intro x hx
    simp only [List.mem_map] at hx
    obtain ⟨t, ht, rfl⟩ := hx
    exact hz t ht
  have hsw : s.weight = 0 := hz s (by simp)
  have hr : rs 0 * (((s :: rest).map (·.weight)).sum : K) = 0 := by
    rw [htot, mul_zero]
  have hsel : selectIndex ((s :: rest).map (·.weight)) 0 = 0 := by
    simp only [selectIndex, List.map_cons, selectIndexOpt, hsw]
    norm_num
  simp only [sampleUnion, sampleUnionGo, hr, hsel]
  simp [alreadyCovered, getShape]

/-- C8 (corrected) — a union whose children all have zero weight is NOT
an error condition: the weighted-selection loop breaks at index 0 on the
first attempt (`r = rand * 0 = 0` and `0 - 0 <= 0`), no earlier child
can reject, and `sampleUnion` returns `Except.ok` of the first child's
sample — it does not fail loudly. -/
theorem claim_C8_zero_weight_union (s : CShape K) (rest : List (CShape K))
    (hz : ∀ t ∈ s :: rest, t.weight = 0) (n : ℕ) (rs : ℕ → K) :
    sampleUnion (s :: rest) (n + 1) rs = .ok (s.sample 0) :=
  sampleUnionZeroAux s rest hz n rs

/-- C8 witness: the zero-weight statement at two concrete weight-0
children over `ℚ` and the default `maxAttempts = 1000`. -/
theorem claim_C8_witness :
    sampleUnion
        [(⟨fun _ => ⟨3, 4, 0⟩, fun _ => true, 0, ⟨0, 0, 0, 0, 0, 0⟩⟩ : CShape ℚ),
         (⟨fun _ => ⟨9, 9, 9⟩, fun _ => true, 0, ⟨0, 0, 0, 0, 0, 0⟩⟩ : CShape ℚ)]
        (999 + 1) (fun _ => 1 / 2) = .ok ⟨3, 4, 0⟩ :=
  claim_C8_zero_weight_union _ _
    (by intro t ht
        simp only [List.mem_cons, List.mem_singleton] at ht
        rcases ht with rfl | rfl | h
        · rfl
        · rfl
        · exact absurd h (List.not_mem_nil t)) 999 (fun _ => 1 / 2)

/-- C8 counterexample: two zero-radius circles (zero total area) fed to
`sampleUnion` with the default `maxAttempts = 1000` produce
`Except.ok (3,4,0)` — a point, not an error — refuting the claim that a
zero-total-weight union fails loudly. -/
theorem claim_C8_counterexample :
    sampleUnion
        [circleCShape ratSqrt id id (22 / 7) ⟨⟨3, 4, 0⟩, 0⟩ (fun _ => 1 / 2) (fun _ => 1 / 2),
         circleCShape ratSqrt id id (22 / 7) ⟨⟨0, 0, 0⟩, 0⟩ (fun _ => 1 / 2) (fun _ => 1 / 2)]
        1000 (fun _ => 1 / 2) = .ok ⟨3, 4, 0⟩ ∧
      Circle2D.area (22 / 7 : ℚ) ⟨⟨3, 4, 0⟩, 0⟩ +
        Circle2D.area (22 / 7 : ℚ) ⟨⟨0, 0, 0⟩, 0⟩ = 0 ∧
      ∀ msg : String,
        sampleUnion
          [circleCShape ratSqrt id id (22 / 7) ⟨⟨3, 4, 0⟩, 0⟩ (fun _ => 1 / 2) (fun _ => 1 / 2),
           circleCShape ratSqrt id id (22 / 7) ⟨⟨0, 0, 0⟩, 0⟩ (fun _ => 1 / 2) (fun _ => 1 / 2)]
          1000 (fun _ => 1 / 2) ≠ .error msg := by
  have hz : ∀ t ∈ [circleCShape ratSqrt id id (22 / 7 : ℚ) ⟨⟨3, 4, 0⟩, 0⟩
      (fun _ => 1 / 2) (fun _ => 1 / 2),
      circleCShape ratSqrt id id (22 / 7) ⟨⟨0, 0, 0⟩, 0⟩ (fun _ => 1 / 2) (fun _ => 1 / 2)],
      t.weight = 0 := by
    intro t ht
    simp only [List.mem_cons, List.mem_singleton] at ht
    rcases ht with rfl | rfl | h
    · simp [circleCShape, Circle2D.area]
    · simp [circleCShape, Circle2D.area]
    · exact absurd h (List.not_mem_nil t)
  have h := sampleUnionZeroAux
    (circleCShape ratSqrt id id (22 / 7 : ℚ) ⟨⟨3, 4, 0⟩, 0⟩ (fun _ => 1 / 2) (fun _ => 1 / 2))
    [circleCShape ratSqrt id id (22 / 7) ⟨⟨0, 0, 0⟩, 0⟩ (fun _ => 1 / 2) (fun _ => 1 / 2)]
    hz 999 (fun _ => 1 / 2)
  have hpt : (circleCShape ratSqrt id id (22 / 7 : ℚ) ⟨⟨3, 4, 0⟩, 0⟩
      (fun _ => 1 / 2) (fun _ => 1 / 2)).sample 0 = ⟨3, 4, 0⟩ := by
    simp only [circleCShape, Circle2D.sample]
    refine Point.ext ?_ ?_ rfl <;> (simp only []; ring)
  rw [hpt] at h
  refine ⟨h, by simp [Circle2D.area], ?_⟩
  intro msg
  rw [h]
  simp

theorem sampleIntersectionGo_ok (shapes : List (CShape K)) (bb : BBox K)
    (xr yr zr : ℕ → K) (total : ℕ) :
    ∀ n k p, sampleIntersectionGo shapes bb xr yr zr total n k = .ok p →
      (shapes.all fun s => s.contains p) = true := by
  intro n
  induction n with
  | zero =>
    intro k p h
    simp [sampleIntersectionGo] at h
  | succ n ih =>
    intro k p h
    simp only [sampleIntersectionGo] at h
    by_cases hc : (shapes.all fun s => s.contains (bboxCandidate bb xr yr zr k)) = true
    · rw [if_pos hc] at h
      cases h
      exact hc
    · rw [if_neg hc] at h
      exact ih (k + 1) p h

theorem sampleIntersectionGo_fail (shapes : List (CShape K)) (bb : BBox K)
    (xr yr zr : ℕ → K) (total : ℕ) :
    ∀ n k, (∀ j, k ≤ j → j < k + n →
        (shapes.all fun s => s.contains (bboxCandidate bb xr yr zr j)) = false) →
      sampleIntersectionGo shapes bb xr yr zr total n k =
        .error ("Intersection sampling failed after " ++ toString total ++ " attempts") := by
  intro n
  induction n with
  | zero => intro k _; rfl
  | succ n ih =>
    intro k h
    simp only [sampleIntersectionGo]
    rw [if_neg (by simp [h k le_rfl (by omega)])]
    exact ih (k + 1) fun j hj1 hj2 => h j (by omega) (by omega)

/-- C2 (corrected) — intersection sampling error contract: a returned
point is accepted by every child's `contains()`; when the children's
bounding boxes are disjoint on the x or the y axis the clear "Shapes do
not intersect (Bounding boxes are disjoint)" error is thrown (the
source checks only those two axes — z-axis disjointness is NOT detected
by this check, see the counterexample); when the boxes pass the x/y
check and every one of the `maxAttempts` draws is rejected, the
attempts-exhausted error is thrown; `CompositeShape`'s default
`maxAttempts` is 1000 and its `sample()` dispatches intersection to
`sampleIntersection`.  A point lying outside some child is never
silently returned. -/
theorem claim_C2_intersection_contract (s0 : CShape K) (rest : List (CShape K))
    (att : ℕ) (xr yr zr rs : ℕ → K) :
    (∀ p, sampleIntersection (s0 :: rest) att xr yr zr = .ok p →
        ∀ s ∈ s0 :: rest, s.contains p = true) ∧
      (((intersectBBox (s0 :: rest) s0.bbox).minX > (intersectBBox (s0 :: rest) s0.bbox).maxX ∨
          (intersectBBox (s0 :: rest) s0.bbox).minY > (intersectBBox (s0 :: rest) s0.bbox).maxY) →
        sampleIntersection (s0 :: rest) att xr yr zr =
          .error "Shapes do not intersect (Bounding boxes are disjoint)") ∧
      ((¬ ((intersectBBox (s0 :: rest) s0.bbox).minX > (intersectBBox (s0 :: rest) s0.bbox).maxX ∨
          (intersectBBox (s0 :: rest) s0.bbox).minY > (intersectBBox (s0 :: rest) s0.bbox).maxY)) →
        (∀ k, k < att → ((s0 :: rest).all fun s =>
            s.contains (bboxCandidate (intersectBBox (s0 :: rest) s0.bbox) xr yr zr k)) = false) →
        sampleIntersection (s0 :: rest) att xr yr zr =
          .error ("Intersection sampling failed after " ++ toString att ++ " attempts")) ∧
      compositeDefaultMaxAttempts = 1000 ∧
      (CompositeShape.mk .intersection (s0 :: rest) att).sample rs xr yr zr =
        sampleIntersection (s0 :: rest) att xr yr zr := by
  refine ⟨?_, ?_, ?_, rfl, rfl⟩
  · intro p h
    simp only [sampleIntersection] at h
    by_cases hd : ((intersectBBox (s0 :: rest) s0.bbox).minX >
        (intersectBBox (s0 :: rest) s0.bbox).maxX ∨
        (intersectBBox (s0 :: rest) s0.bbox).minY > (intersectBBox (s0 :: rest) s0.bbox).maxY)
    · rw [if_pos hd] at h
      cases h
    · rw [if_neg hd] at h
      have := sampleIntersectionGo_ok (s0 :: rest) _ xr yr zr att att 0 p h
      simpa [List.all_eq_true] using this
  · intro hd
    simp only [sampleIntersection]
    rw [if_pos hd]
  · intro hd hrej
    simp only [sampleIntersection]
    rw [if_neg hd]
    exact sampleIntersectionGo_fail (s0 :: rest) _ xr yr zr att att 0
      fun j hj1 hj2 => hrej j (by omega)

/-- C2 witness: two x-disjoint unit boxes over `ℚ` produce the
designated disjointness error. -/
theorem claim_C2_witness :
    sampleIntersection
        [boxCShape (⟨⟨0, 0, 0⟩, 1, 1, 1⟩ : Box3D ℚ) (fun _ => 1 / 2) (fun _ => 1 / 2)
          (fun _ => 1 / 2),
         boxCShape ⟨⟨5, 0, 0⟩, 1, 1, 1⟩ (fun _ => 1 / 2) (fun _ => 1 / 2) (fun _ => 1 / 2)]
        5 (fun _ => 1 / 2) (fun _ => 1 / 2) (fun _ => 1 / 2) =
      .error "Shapes do not intersect (Bounding boxes are disjoint)" := by
  apply (claim_C2_intersection_contract
    (boxCShape (⟨⟨0, 0, 0⟩, 1, 1, 1⟩ : Box3D ℚ) (fun _ => 1 / 2) (fun _ => 1 / 2)
      (fun _ => 1 / 2))
    [boxCShape ⟨⟨5, 0, 0⟩, 1, 1, 1⟩ (fun _ => 1 / 2) (fun _ => 1 / 2) (fun _ => 1 / 2)]
    5 (fun _ => 1 / 2) (fun _ => 1 / 2) (fun _ => 1 / 2) (fun _ => 1 / 2)).2.1
  left
  norm_num [intersectBBox, boxCShape, Box3D.bbox, max_def, min_def]

/-- C2 counterexample: two boxes whose bounding boxes are disjoint only
on the z axis (z-ranges [0,1] and [2,3]).  The claim says any-axis
disjointness raises the "shapes do not intersect" error; the code
checks only x and y, falls through to rejection sampling, and throws
the attempts-exhausted error instead. -/
theorem claim_C2_counterexample :
    (intersectBBox
        [boxCShape (⟨⟨0, 0, 1 / 2⟩, 2, 2, 1⟩ : Box3D ℚ) (fun _ => 1 / 2) (fun _ => 1 / 2)
          (fun _ => 1 / 2),
         boxCShape ⟨⟨0, 0, 5 / 2⟩, 2, 2, 1⟩ (fun _ => 1 / 2) (fun _ => 1 / 2) (fun _ => 1 / 2)]
        (boxCShape (⟨⟨0, 0, 1 / 2⟩, 2, 2, 1⟩ : Box3D ℚ) (fun _ => 1 / 2) (fun _ => 1 / 2)
          (fun _ => 1 / 2)).bbox).maxZ <
      (intersectBBox
        [boxCShape (⟨⟨0, 0, 1 / 2⟩, 2, 2, 1⟩ : Box3D ℚ) (fun _ => 1 / 2) (fun _ => 1 / 2)
          (fun _ => 1 / 2),
         boxCShape ⟨⟨0, 0, 5 / 2⟩, 2, 2, 1⟩ (fun _ => 1 / 2) (fun _ => 1 / 2) (fun _ => 1 / 2)]
        (boxCShape (⟨⟨0, 0, 1 / 2⟩, 2, 2, 1⟩ : Box3D ℚ) (fun _ => 1 / 2) (fun _ => 1 / 2)
          (fun _ => 1 / 2)).bbox).minZ ∧
      sampleIntersection
        [boxCShape (⟨⟨0, 0, 1 / 2⟩, 2, 2, 1⟩ : Box3D ℚ) (fun _ => 1 / 2) (fun _ => 1 / 2)
          (fun _ => 1 / 2),
         boxCShape ⟨⟨0, 0, 5 / 2⟩, 2, 2, 1⟩ (fun _ => 1 / 2) (fun _ => 1 / 2) (fun _ => 1 / 2)]
        3 (fun _ => 1 / 2) (fun _ => 1 / 2) (fun _ => 1 / 2) =
        .error "Intersection sampling failed after 3 attempts" ∧
      (Except.error "Intersection sampling failed after 3 attempts" ≠
        (Except.error "Shapes do not intersect (Bounding boxes are disjoint)" :
          Except String (Point ℚ))) := by
  have hbb : intersectBBox
      [boxCShape (⟨⟨0, 0, 1 / 2⟩, 2, 2, 1⟩ : Box3D ℚ) (fun _ => 1 / 2) (fun _ => 1 / 2)
        (fun _ => 1 / 2),
       boxCShape ⟨⟨0, 0, 5 / 2⟩, 2, 2, 1⟩ (fun _ => 1 / 2) (fun _ => 1 / 2) (fun _ => 1 / 2)]
      (boxCShape (⟨⟨0, 0, 1 / 2⟩, 2, 2, 1⟩ : Box3D ℚ) (fun _ => 1 / 2) (fun _ => 1 / 2)
        (fun _ => 1 / 2)).bbox = ⟨-1, 1, -1, 1, 2, 1⟩ := by
    show BBox.mk _ _ _ _ _ _ = _
    norm_num [intersectBBox, boxCShape, Box3D.bbox, max_def, min_def]
  have hrej : ∀ j : ℕ,
      (([boxCShape (⟨⟨0, 0, 1 / 2⟩, 2, 2, 1⟩ : Box3D ℚ) (fun _ => 1 / 2) (fun _ => 1 / 2)
          (fun _ => 1 / 2),
         boxCShape ⟨⟨0, 0, 5 / 2⟩, 2, 2, 1⟩ (fun _ => 1 / 2) (fun _ => 1 / 2)
          (fun _ => 1 / 2)]).all fun s =>
        s.contains (bboxCandidate (⟨-1, 1, -1, 1, 2, 1⟩ : BBox ℚ)
          (fun _ => 1 / 2) (fun _ => 1 / 2) (fun _ => 1 / 2) j)) = false := by
    intro j
    have hcand : bboxCandidate (⟨-1, 1, -1, 1, 2, 1⟩ : BBox ℚ)
        (fun _ => 1 / 2) (fun _ => 1 / 2) (fun _ => 1 / 2) j = ⟨0, 0, 3 / 2⟩ := by
      show Point.mk _ _ _ = _
      norm_num [bboxCandidate]
    rw [hcand]
    have hc1 : (boxCShape (⟨⟨0, 0, 1 / 2⟩, 2, 2, 1⟩ : Box3D ℚ) (fun _ => 1 / 2)
        (fun _ => 1 / 2) (fun _ => 1 / 2)).contains ⟨0, 0, 3 / 2⟩ = false := by
      simp only [boxCShape, Box3D.contains, defaultEps]
      rw [decide_eq_false_iff_not]
      rintro ⟨-, -, h3⟩
      norm_num at h3
    simp only [List.all_cons]
    rw [hc1]
    rfl
  simp only [sampleIntersection, hbb]
  refine ⟨by norm_num, ?_, by simp⟩
  rw [if_neg (by norm_num)]
  exact sampleIntersectionGo_fail _ _ _ _ _ 3 3 0 fun j _ _ => hrej j

theorem sampleDifferenceGo_ok (A B : CShape K) (total : ℕ) :
    ∀ n k p, sampleDifferenceGo A B total n k = .ok p →
      ∃ j, k ≤ j ∧ j < k + n ∧ p = A.sample j ∧ B.contains p = false := by
  intro n
  induction n with
  | zero =>
    intro k p h
    simp [sampleDifferenceGo] at h
  | succ n ih =>
    intro k p h
    simp only [sampleDifferenceGo] at h
    by_cases hc : B.contains (A.sample k) = true
    · rw [if_pos hc] at h
      obtain ⟨j, h1, h2, h3, h4⟩ := ih (k + 1) p h
      exact ⟨j, by omega, by omega, h3, h4⟩
    · rw [if_neg hc] at h
      cases h
      exact ⟨k, le_rfl, by omega, rfl, by simpa using hc⟩

theorem sampleDifferenceGo_fail (A B : CShape K) (total : ℕ) :
    ∀ n k, (∀ j, k ≤ j → j < k + n → B.contains (A.sample j) = true) →
      sampleDifferenceGo A B total n k =
        .error ("Difference sampling failed after " ++ toString total ++ " attempts") := by
  intro n
  induction n with
  | zero => intro k _; rfl
  | succ n ih =>
    intro k h
    simp only [sampleDifferenceGo]
    rw [if_pos (h k le_rfl (by omega))]
    exact ih (k + 1) fun j h1 h2 => h j (by omega) (by omega)

/-- C4 (confirmed) — difference sampling contract: every `Except.ok`
point of `sampleDifference(A, B, maxAttempts)` is one of `A`'s own
samples (drawn by `A.sample()`, not from a bounding box) with
`B.contains` false; if every one of the `maxAttempts` (default 1000 via
`CompositeShape`) candidates lies inside `B`, the attempts error is
thrown; and for the donut (outer circle radius 5, inner radius 2, same
center, built as a `CompositeShape('difference', ...)`) every returned
point's distance `d` from the center satisfies `2 < d ≤ 5`. -/
theorem claim_C4_difference_contract (A B : CShape ℝ) (att : ℕ)
    (u1 u2 v1 v2 rs xr yr zr : ℕ → ℝ) (hu2 : ∀ k, 0 ≤ u2 k ∧ u2 k < 1) :
    (∀ p, sampleDifference A B att = .ok p →
        ∃ k, k < att ∧ p = A.sample k ∧ B.contains p = false) ∧
      ((∀ k, k < att → B.contains (A.sample k) = true) →
        sampleDifference A B att =
          .error ("Difference sampling failed after " ++ toString att ++ " attempts")) ∧
      (∀ p, (CompositeShape.mk .difference
          [circleCShape Real.sqrt Real.cos Real.sin Real.pi ⟨⟨0, 0, 0⟩, 5⟩ u1 u2,
           circleCShape Real.sqrt Real.cos Real.sin Real.pi ⟨⟨0, 0, 0⟩, 2⟩ v1 v2]
          1000).sample rs xr yr zr = .ok p →
        2 < Real.sqrt (p.x ^ 2 + p.y ^ 2) ∧ Real.sqrt (p.x ^ 2 + p.y ^ 2) ≤ 5) ∧
      compositeDefaultMaxAttempts = 1000 := by
  refine ⟨?_, ?_, ?_, rfl⟩
  · intro p h
    obtain ⟨j, h1, h2, h3, h4⟩ := sampleDifferenceGo_ok A B att att 0 p h
    exact ⟨j, by omega, h3, h4⟩
  · intro h
    exact sampleDifferenceGo_fail A B att att 0 fun j hj1 hj2 => h j (by omega)
  · intro p h
    have hdisp : (CompositeShape.mk .difference
        [circleCShape Real.sqrt Real.cos Real.sin Real.pi ⟨⟨0, 0, 0⟩, 5⟩ u1 u2,
         circleCShape Real.sqrt Real.cos Real.sin Real.pi ⟨⟨0, 0, 0⟩, 2⟩ v1 v2]
        1000).sample rs xr yr zr =
        sampleDifference
          (circleCShape Real.sqrt Real.cos Real.sin Real.pi ⟨⟨0, 0, 0⟩, 5⟩ u1 u2)
          (circleCShape Real.sqrt Real.cos Real.sin Real.pi ⟨⟨0, 0, 0⟩, 2⟩ v1 v2)
          1000 := rfl
    rw [hdisp] at h
    obtain ⟨j, -, -, h3, h4⟩ := sampleDifferenceGo_ok _ _ 1000 1000 0 p h
    -- the squared distance of the sampled point is 25 * u2 j
    obtain ⟨hu0, hu1⟩ := hu2 j
    have hpx : p.x = Real.sqrt (u2 j) * 5 * Real.cos (u1 j * 2 * Real.pi) := by
      rw [h3]
      show (0 : ℝ) + Real.sqrt (u2 j) * 5 * Real.cos (u1 j * 2 * Real.pi) = _
      ring
    have hpy : p.y = Real.sqrt (u2 j) * 5 * Real.sin (u1 j * 2 * Real.pi) := by
      rw [h3]
      show (0 : ℝ) + Real.sqrt (u2 j) * 5 * Real.sin (u1 j * 2 * Real.pi) = _
      ring
    have hsq : p.x ^ 2 + p.y ^ 2 = 25 * u2 j := by
      rw [hpx, hpy]
      have hpyth := Real.sin_sq_add_cos_sq (u1 j * 2 * Real.pi)
      have hs : Real.sqrt (u2 j) ^ 2 = u2 j := Real.sq_sqrt hu0
      nlinarith [hpyth, hs]
    -- B rejects the point, so its squared distance exceeds 4
    have hgt4 : 4 < p.x ^ 2 + p.y ^ 2 := by
      have hc := h4
      simp only [circleCShape, Circle2D.contains] at hc
      rw [decide_eq_false_iff_not] at hc
      push_neg at hc
      nlinarith [hc]
    constructor
    · have h24 : Real.sqrt 4 < Real.sqrt (p.x ^ 2 + p.y ^ 2) :=
        Real.sqrt_lt_sqrt (by norm_num) hgt4
      rwa [show (4 : ℝ) = 2 ^ 2 by norm_num, Real.sqrt_sq (by norm_num)] at h24
    · have h25 : p.x ^ 2 + p.y ^ 2 ≤ 25 := by
        rw [hsq]
        nlinarith
      have := Real.sqrt_le_sqrt h25
      rwa [show (25 : ℝ) = 5 ^ 2 by norm_num, Real.sqrt_sq (by norm_num)] at this

/-- C4 witness: the contract applied to concrete duck shapes over `ℝ`
(`A` sampling a constant point that `B` never contains) with
`maxAttempts = 2` and all-zero random streams. -/
theorem claim_C4_witness :
    (∀ p, sampleDifference (⟨fun _ => ⟨1, 2, 0⟩, fun _ => true, 1, ⟨0, 0, 0, 0, 0, 0⟩⟩ :
          CShape ℝ) ⟨fun _ => ⟨0, 0, 0⟩, fun _ => false, 1, ⟨0, 0, 0, 0, 0, 0⟩⟩ 2 = .ok p →
        ∃ k, k < 2 ∧ p = (⟨fun _ => ⟨1, 2, 0⟩, fun _ => true, 1, ⟨0, 0, 0, 0, 0, 0⟩⟩ :
          CShape ℝ).sample k ∧
          (⟨fun _ => ⟨0, 0, 0⟩, fun _ => false, 1, (⟨0, 0, 0, 0, 0, 0⟩ : BBox ℝ)⟩ :
            CShape ℝ).contains p = false) ∧
      ((∀ k, k < 2 → (⟨fun _ => ⟨0, 0, 0⟩, fun _ => false, 1, (⟨0, 0, 0, 0, 0, 0⟩ : BBox ℝ)⟩ :
          CShape ℝ).contains ((⟨fun _ => ⟨1, 2, 0⟩, fun _ => true, 1,
            ⟨0, 0, 0, 0, 0, 0⟩⟩ : CShape ℝ).sample k) = true) →
        sampleDifference (⟨fun _ => ⟨1, 2, 0⟩, fun _ => true, 1, ⟨0, 0, 0, 0, 0, 0⟩⟩ :
          CShape ℝ) ⟨fun _ => ⟨0, 0, 0⟩, fun _ => false, 1, ⟨0, 0, 0, 0, 0, 0⟩⟩ 2 =
          .error ("Difference sampling failed after " ++ toString 2 ++ " attempts")) ∧
      (∀ p, (CompositeShape.mk .difference
          [circleCShape Real.sqrt Real.cos Real.sin Real.pi ⟨⟨0, 0, 0⟩, 5⟩
            (fun _ => 0) (fun _ => 0),
           circleCShape Real.sqrt Real.cos Real.sin Real.pi ⟨⟨0, 0, 0⟩, 2⟩
            (fun _ => 0) (fun _ => 0)]
          1000).sample (fun _ => 0) (fun _ => 0) (fun _ => 0) (fun _ => 0) = .ok p →
        2 < Real.sqrt (p.x ^ 2 + p.y ^ 2) ∧ Real.sqrt (p.x ^ 2 + p.y ^ 2) ≤ 5) ∧
      compositeDefaultMaxAttempts = 1000 :=
  claim_C4_difference_contract
    ⟨fun _ => ⟨1, 2, 0⟩, fun _ => true, 1, ⟨0, 0, 0, 0, 0, 0⟩⟩
    ⟨fun _ => ⟨0, 0, 0⟩, fun _ => false, 1, ⟨0, 0, 0, 0, 0, 0⟩⟩ 2
    (fun _ => 0) (fun _ => 0) (fun _ => 0) (fun _ => 0)
    (fun _ => 0) (fun _ => 0) (fun _ => 0) (fun _ => 0)
    (fun _ => ⟨le_rfl, by norm_num⟩)

end ReglGraphics
